import Mathlib

/-!
# Formal model of drf-pydantic's type-to-field conversion engine

This file is a shallow embedding of the core of the `drf_pydantic` package:

* `parse.py` — `create_serializer_from_model`, `_convert_field`, `_convert_type`
  and the module-level `SERIALIZER_REGISTRY` / `FIELD_MAP`;
* `utils.py` — `get_union_members`, `is_scalar`;
* `base_serializer.py` — `DrfPydanticSerializer.validate` (the dual-validation
  coordinator and its pydantic-to-DRF error translation);
* `base_model.py` — the legacy (pydantic v1) conversion path, embedded in the
  `Legacy` namespace;
* `fields.py` — the `EnumField` custom field's validation methods;
* `config.py` — `DrfConfigDict`.

Python type annotations are modelled by the inductive `PType`; pydantic
`FieldInfo` objects by `FieldInfo`; DRF serializer field instances by
`DrfField`, whose keyword arguments are the `Kwargs` structure (a Python kwargs
dict with a statically known key set: `none` means "key absent").  Python
exceptions are the `PyErr` inductive; raising is `Except.error`.  The process
wide `SERIALIZER_REGISTRY` dict is threaded explicitly as a `RegState`; the
unbounded recursion of the Python functions is made total with a fuel
parameter, `PyErr.diverge` marking fuel exhaustion.
-/

deriving instance DecidableEq for Except

namespace DrfPydantic

/-- Identity of a pydantic model class (dict key of `SERIALIZER_REGISTRY`). -/
abbrev ModelId := Nat

/-- Python runtime values, as far as the conversion and validation logic
inspects them.  `vEnumMember e m` is the enum member object `m` of the enum
class named `e`; `vmodel m` is an instance of the pydantic model `m`, and
`vdump m` the plain dict produced by `model_dump()` on such an instance. -/
inductive Value where
  | vstr (s : String)
  | vint (n : Int)
  | vbool (b : Bool)
  | vnone
  | vEnumMember (ename : String) (mname : String)
  | vmodel (m : ModelId)
  | vdump (m : ModelId)
  deriving DecidableEq, Repr

/-- A Python `enum.Enum` class: its name and its ordered members
(member name, member value). -/
structure EnumDef where
  ename : String
  members : List (String × Value)
  deriving DecidableEq, Repr

/-- A regex pattern (`str` or compiled `re.Pattern`).  The only property of the
pattern the conversion logic computes is whether `re.search(pattern, "")`
matches, carried here as the field `matchesEmpty`. -/
structure RegexPattern where
  src : String
  matchesEmpty : Bool
  deriving DecidableEq, Repr

/-- Python type annotations as classified by `parse._convert_type`.
Scalar classes mirror the keys of `parse.FIELD_MAP`; `plist`/`ptuple`/`pdict`
are subscripted generic aliases; `punion` a `Union`/`Optional` type;
`jsonAlias` is `pydantic.JsonValue` and `otherAlias` any other
`TypeAliasType`; `drfModel` is a `drf_pydantic.BaseModel` subclass and
`plainModel` a plain `pydantic.BaseModel` subclass; `ellipsisObj` is the
`Ellipsis` object (which reaches `_convert_type` from tuple arguments);
`strSubclass` is a user-defined subclass of `str` and `unknownClass` any other
class not otherwise supported. -/
inductive PType where
  | pnone
  | pbool
  | pstr
  | emailStr
  | purl
  | phttpUrl
  | puuid
  | pint
  | pfloat
  | pdecimal
  | pdatetime
  | pdate
  | ptime
  | ptimedelta
  | penum (e : EnumDef)
  | plist (elem : PType)
  | ptuple (args : List PType)
  | pdict (key : PType) (val : PType)
  | pliteral (choices : List Value)
  | punion (members : List PType)
  | jsonAlias
  | otherAlias (aname : String)
  | drfModel (m : ModelId)
  | plainModel (m : ModelId)
  | ellipsisObj
  | strSubclass (cname : String)
  | unknownClass (cname : String)

/-- The kwargs dict accumulated by `_convert_field` and passed to the DRF
field constructors.  An outer `none` means the key is absent from the dict.
`minLength`/`maxLength` store `Option Int` inside because Python can store the
value `None` under the key (see the `StringConstraints` branch of
`_convert_field`).  `minValue`/`maxValue` hold `decimal.Decimal` values,
modelled as rationals. -/
structure Kwargs where
  required : Option Bool := none
  default : Option Value := none
  helpText : Option String := none
  label : Option String := none
  allowNull : Option Bool := none
  allowBlank : Option Bool := none
  allowEmpty : Option Bool := none
  minLength : Option (Option Int) := none
  maxLength : Option (Option Int) := none
  minValue : Option Rat := none
  maxValue : Option Rat := none
  maxDigits : Option Nat := none
  decimalPlaces : Option Nat := none
  deriving DecidableEq, Repr

/-- The DRF serializer field classes reachable through `parse.FIELD_MAP`. -/
inductive BasicKind where
  | booleanField
  | charField
  | emailField
  | urlField
  | uuidField
  | integerField
  | floatField
  | decimalField
  | dateTimeField
  | dateField
  | timeField
  | durationField
  deriving DecidableEq, Repr

/-- One entry of a DRF `ChoiceField`'s `choices` argument: either a bare value
or a `(value, display name)` pair. -/
inductive Choice where
  | single (v : Value)
  | pair (a b : Value)
  deriving DecidableEq, Repr

/-- A DRF serializer field instance, as produced by `_convert_type`:
the field class together with the kwargs it was constructed with.
`serializerField` is an instance of a serializer class used as a nested
field; `enumField` is the custom `drf_pydantic.fields.EnumField`. -/
inductive DrfField where
  | basic (k : BasicKind) (kw : Kwargs)
  | listField (kw : Kwargs) (child : DrfField)
  | dictField (kw : Kwargs) (child : DrfField)
  | choiceField (kw : Kwargs) (choices : List Choice)
  | enumField (kw : Kwargs) (e : EnumDef) (choices : List Choice)
  | regexField (kw : Kwargs) (pattern : RegexPattern)
  | jsonField (kw : Kwargs)
  | serializerField (kw : Kwargs) (clsId : Nat) (model : ModelId)
  deriving DecidableEq, Repr

/-- The value of a pydantic numeric bound (`ge`/`gt`/`le`/`lt`): either a
value `decimal.Decimal` accepts, or one on which `decimal.Decimal(x)` raises
`TypeError`/`InvalidOperation` (the `try`/`except ... pass` in
`_convert_field`). -/
inductive NumBound where
  | num (q : Rat)
  | nonNumeric
  deriving DecidableEq, Repr

/-- One item of a pydantic field's `metadata` list, as inspected by
`_convert_field` and `_convert_type`.  `manualDrfField` is an explicit DRF
serializer field placed in the metadata; `generalMetadata` is pydantic's
`_PydanticGeneralMetadata` (an instance of `PydanticMetadata`); `otherItem`
is any metadata item matching none of the `isinstance` checks. -/
inductive MetaItem where
  | stringConstraints (minL maxL : Option Int) (pattern : Option RegexPattern)
  | minLen (n : Int)
  | maxLen (n : Int)
  | generalMetadata (maxDigits decimalPlaces : Option Nat) (pattern : Option RegexPattern)
  | ge (v : NumBound)
  | gt (v : NumBound)
  | le (v : NumBound)
  | lt (v : NumBound)
  | manualDrfField (f : DrfField)
  | otherItem
  deriving DecidableEq, Repr

/-- A pydantic v2 `FieldInfo`: annotation, metadata list, `is_required()`,
the default resolved by `get_default(call_default_factory=True)` (`none`
standing for `PydanticUndefined`), `description` and `title`. -/
structure FieldInfo where
  annotation : PType
  metadata : List MetaItem := []
  required : Bool := true
  default : Option Value := none
  description : Option String := none
  title : Option String := none

/-- A pydantic model class: its `__name__` and its `model_fields`. -/
structure ModelDef where
  mname : String
  fields : List (String × FieldInfo)

/-- The two values of the `validation_error` config key. -/
inductive ErrAuthority where
  | drf
  | pydantic
  deriving DecidableEq, Repr

/-- `config.DrfConfigDict` — a `TypedDict` with `total=False`, so every key
may be absent (`none`). -/
structure DrfConfig where
  validate_pydantic : Option Bool := none
  validation_error : Option ErrAuthority := none
  backpopulate_after_validation : Option Bool := none
  deriving DecidableEq, Repr

/-- A serializer class created by `type(f"{name}Serializer", ...)` in
`create_serializer_from_model`.  `clsId` is the identity of the freshly
created class object (reference equality is equality of `clsId`). -/
structure SerializerClass where
  clsId : Nat
  sname : String
  model : ModelId
  drf_config : DrfConfig
  fields : List (String × DrfField)
  deriving DecidableEq, Repr

/-- The mutable process-wide state: the `SERIALIZER_REGISTRY` dict (keyed by
model identity, insertion ordered) and a counter supplying fresh class
identities for `type(...)` calls. -/
structure RegState where
  reg : List (ModelId × SerializerClass) := []
  nextId : Nat := 0
  deriving DecidableEq, Repr

/-- The ambient static environment: the pydantic model classes (indexed by
`ModelId`) and the `drf_serializer` attribute of `drf_pydantic.BaseModel`
subclasses (absent entries model an unset attribute). -/
structure Env where
  models : List ModelDef := []
  drfAttr : List (ModelId × Nat) := []

/-- The two `warnings.warn` calls of `_convert_field`. -/
inductive Warning where
  | gtNotSupported
  | ltNotSupported
  deriving DecidableEq, Repr

/-- Python exceptions raised by the embedded code.  `fieldConversionError` and
`modelConversionError` are the package's own error classes (`errors.py`);
`typeErr`, `attributeErr`, `notImplementedErr` and `indexErr` are the
corresponding builtin exceptions; `diverge` marks fuel exhaustion of the
embedding (unbounded recursion in Python); `internal` is unreachable. -/
inductive PyErr where
  | fieldConversionError (msg : String)
  | modelConversionError (msg : String)
  | typeErr (msg : String)
  | attributeErr (msg : String)
  | notImplementedErr (msg : String)
  | indexErr
  | diverge
  | internal
  deriving DecidableEq, Repr

/-- Dict lookup in `SERIALIZER_REGISTRY` (`pydantic_model in SERIALIZER_REGISTRY`,
`SERIALIZER_REGISTRY[pydantic_model]`). -/
def regFind : List (ModelId × SerializerClass) → ModelId → Option SerializerClass
  | [], _ => none
  | (k, v) :: rest, m => if k = m then some v else regFind rest m

/-- Dict assignment `SERIALIZER_REGISTRY[pydantic_model] = cls`: replaces the
value in place if the key exists, otherwise appends. -/
def regInsert : List (ModelId × SerializerClass) → ModelId → SerializerClass →
    List (ModelId × SerializerClass)
  | [], m, c => [(m, c)]
  | (k, v) :: rest, m, c =>
      if k = m then (k, c) :: rest else (k, v) :: regInsert rest m c

/-- Lookup of the `drf_serializer` class attribute. -/
def attrFind : List (ModelId × Nat) → ModelId → Option Nat
  | [], _ => none
  | (k, v) :: rest, m => if k = m then some v else attrFind rest m

/-- `pydantic_model.model_fields` access for a model id. -/
def getModel (env : Env) (m : ModelId) : ModelDef :=
  env.models.getD m ⟨"", []⟩

/-- `utils.get_union_members`: the members of a union type, `none` for any
non-union type. -/
def get_union_members : PType → Option (List PType)
  | .punion ms => some ms
  | _ => none

/-- `utils.is_scalar`: true iff the annotation is not a (typing or builtin)
generic alias.  Subscripted `list`/`tuple`/`dict`, `Literal[...]` and union
types are generic aliases; every class (including the `Ellipsis` object,
which is no alias either) is scalar. -/
def is_scalar : PType → Bool
  | .plist _ => false
  | .ptuple _ => false
  | .pdict _ _ => false
  | .pliteral _ => false
  | .punion _ => false
  | _ => true

/-- `isinstance(type_, TypeAliasType)`. -/
def isAliasT : PType → Bool
  | .jsonAlias => true
  | .otherAlias _ => true
  | _ => false

/-- The identity test `type_ is type(None)` (and membership
`type(None) in members`, which for classes is an identity test too). -/
def isNoneType : PType → Bool
  | .pnone => true
  | _ => false

/-- `type_ is pydantic.JsonValue`. -/
def isJsonValue : PType → Bool
  | .jsonAlias => true
  | _ => false

/-- `type_ is decimal.Decimal`. -/
def isDecimalT : PType → Bool
  | .pdecimal => true
  | _ => false

/-- `type_ is str` (exactly the `str` class, not a subclass — used for the
dict key check). -/
def isStrExact : PType → Bool
  | .pstr => true
  | _ => false

/-- `type_ is Ellipsis`. -/
def isEllipsis : PType → Bool
  | .ellipsisObj => true
  | _ => false

/-- Equality of two annotations as computed by Python's `set()` in the tuple
branch of `_convert_type`.  The check `len(set(type_args)) == 1` is only
evaluated after `all(is_scalar(arg) for arg in type_args)` holds, and scalar
annotations are classes compared by identity, so only the non-recursive
constructors need to compare equal; the generic-alias constructors (which
cannot reach the check) compare unequal. -/
def scalarEqb (a b : PType) : Bool :=
  match a, b with
  | .pnone, .pnone => true
  | .pbool, .pbool => true
  | .pstr, .pstr => true
  | .emailStr, .emailStr => true
  | .purl, .purl => true
  | .phttpUrl, .phttpUrl => true
  | .puuid, .puuid => true
  | .pint, .pint => true
  | .pfloat, .pfloat => true
  | .pdecimal, .pdecimal => true
  | .pdatetime, .pdatetime => true
  | .pdate, .pdate => true
  | .ptime, .ptime => true
  | .ptimedelta, .ptimedelta => true
  | .penum e1, .penum e2 => e1 == e2
  | .jsonAlias, .jsonAlias => true
  | .otherAlias a1, .otherAlias a2 => a1 == a2
  | .drfModel m1, .drfModel m2 => m1 == m2
  | .plainModel m1, .plainModel m2 => m1 == m2
  | .ellipsisObj, .ellipsisObj => true
  | .strSubclass c1, .strSubclass c2 => c1 == c2
  | .unknownClass c1, .unknownClass c2 => c1 == c2
  | _, _ => false

/-- `inspect.isclass(type_)`: false only for the `Ellipsis` object among the
scalar annotations. -/
def isClassP : PType → Bool
  | .ellipsisObj => false
  | _ => true

/-- `type_.__name__` — `none` when the attribute access raises
`AttributeError` (the `Ellipsis` object has no `__name__`). -/
def typeName : PType → Option String
  | .pnone => some "NoneType"
  | .pbool => some "bool"
  | .pstr => some "str"
  | .emailStr => some "EmailStr"
  | .purl => some "Url"
  | .phttpUrl => some "HttpUrl"
  | .puuid => some "UUID"
  | .pint => some "int"
  | .pfloat => some "float"
  | .pdecimal => some "Decimal"
  | .pdatetime => some "datetime"
  | .pdate => some "date"
  | .ptime => some "time"
  | .ptimedelta => some "timedelta"
  | .penum e => some e.ename
  | .plist _ => some "list"
  | .ptuple _ => some "tuple"
  | .pdict _ _ => some "dict"
  | .pliteral _ => some "Literal"
  | .punion _ => some "Union"
  | .jsonAlias => some "JsonValue"
  | .otherAlias a => some a
  | .drfModel m => some ("DrfModel" ++ toString m)
  | .plainModel m => some ("Model" ++ toString m)
  | .ellipsisObj => none
  | .strSubclass c => some c
  | .unknownClass c => some c

/-- A rendering of the annotation, standing in for Python's `str(type_)` in
interpolated error messages. -/
def reprType (t : PType) : String :=
  match t with
  | .punion ms => "Union[" ++ String.intercalate ", " (ms.map fun x => (typeName x).getD "...") ++ "]"
  | .ptuple args => "tuple[" ++ String.intercalate ", " (args.map fun x => (typeName x).getD "...") ++ "]"
  | .pdict k v => "dict[" ++ (typeName k).getD "..." ++ ", " ++ (typeName v).getD "..." ++ "]"
  | _ => (typeName t).getD "..."

/-- `issubclass(type_, (pydantic.EmailStr, pydantic_core.Url, pydantic.HttpUrl))`. -/
def isEmailOrUrl : PType → Bool
  | .emailStr => true
  | .purl => true
  | .phttpUrl => true
  | _ => false

/-- `issubclass(type_, str)` for the scalar classes that can reach the
allow_blank handling of `_convert_type`. -/
def isStrSub : PType → Bool
  | .pstr => true
  | .emailStr => true
  | .strSubclass _ => true
  | _ => false

/-- `issubclass(type_, enum.Enum)`. -/
def isEnumT : PType → Option EnumDef
  | .penum e => some e
  | _ => none

/-- The `for key in type_.__mro__: return FIELD_MAP[key](**kwargs)` loop of
`_convert_type`: the first class in the method resolution order with a
`FIELD_MAP` entry.  `str` subclasses inherit `CharField` through their mro;
`bool` precedes its base `int`; `HttpUrl` is in the map directly. -/
def fieldMapMro : PType → Option BasicKind
  | .pbool => some .booleanField
  | .pstr => some .charField
  | .emailStr => some .emailField
  | .purl => some .urlField
  | .phttpUrl => some .urlField
  | .puuid => some .uuidField
  | .pint => some .integerField
  | .pfloat => some .floatField
  | .pdatetime => some .dateTimeField
  | .pdate => some .dateField
  | .ptime => some .timeField
  | .ptimedelta => some .durationField
  | .strSubclass _ => some .charField
  | _ => none

/-- `kwargs.get("min_length", 0) == 0` (note that a stored `None` compares
unequal to `0`). -/
def minLenBlankOk : Option (Option Int) → Bool
  | none => true
  | some none => false
  | some (some v) => v == 0

/-- Whether a metadata item carries a regex pattern, as tested by the regex
branch of `_convert_type`. -/
def itemHasPattern : MetaItem → Bool
  | .stringConstraints _ _ (some _) => true
  | .generalMetadata _ _ (some _) => true
  | _ => false

/-- `field is not None and any(... pattern ...)` — the guard of the regex
branch of `_convert_type`. -/
def hasPatternMeta : Option FieldInfo → Bool
  | none => false
  | some f => f.metadata.any itemHasPattern

/-- The `regex_patterns` list collected inside the regex branch. -/
def collectPatterns : Option FieldInfo → List RegexPattern
  | none => []
  | some f => f.metadata.filterMap fun i =>
      match i with
      | .stringConstraints _ _ (some p) => some p
      | .generalMetadata _ _ (some p) => some p
      | _ => none

/-- Rendering of the pattern list for the "multiple regex patterns" error. -/
def reprPatterns (ps : List RegexPattern) : String :=
  "[" ++ String.intercalate ", " (ps.map RegexPattern.src) ++ "]"

/-- The aggregate `ModelConversionError` message built by
`create_serializer_from_model` from the per-field error map. -/
def modelErrMsg (mname : String) (errs : List (String × String)) : String :=
  String.intercalate "\n"
    (("Error when converting model: " ++ mname) ::
      errs.map fun p => "  " ++ p.1 ++ "\n    " ++ p.2)

/-- One step of the constraint-folding loop of `_convert_field`
(the `for item in field.metadata` loop, parse.py lines 196-286): updates the
kwargs dict and the warnings emitted so far, or raises.  `max`/`min` against
an existing stored `None` is the Python `TypeError` of `max(None, int)`. -/
def applyConstraint (kw : Kwargs) (ws : List Warning) :
    MetaItem → Except PyErr (Kwargs × List Warning)
  | .stringConstraints mn mx _ =>
    let step1 : Except PyErr Kwargs :=
      match mn with
      | some v =>
        match kw.minLength with
        | none => .ok {kw with minLength := some (some v)}
        | some none => .error (.typeErr "max of NoneType and int is not supported")
        | some (some w) => .ok {kw with minLength := some (some (max w v))}
      | none => .ok {kw with minLength := some (kw.minLength.getD none)}
    match step1 with
    | .error e => .error e
    | .ok kw =>
      match mx with
      | some v =>
        match kw.maxLength with
        | none => .ok ({kw with maxLength := some (some v)}, ws)
        | some none => .error (.typeErr "min of NoneType and int is not supported")
        | some (some w) => .ok ({kw with maxLength := some (some (min w v))}, ws)
      | none => .ok ({kw with maxLength := some (kw.maxLength.getD none)}, ws)
  | .minLen n =>
    match kw.minLength with
    | none => .ok ({kw with minLength := some (some n)}, ws)
    | some none => .error (.typeErr "max of NoneType and int is not supported")
    | some (some w) => .ok ({kw with minLength := some (some (max w n))}, ws)
  | .maxLen n =>
    match kw.maxLength with
    | none => .ok ({kw with maxLength := some (some n)}, ws)
    | some none => .error (.typeErr "min of NoneType and int is not supported")
    | some (some w) => .ok ({kw with maxLength := some (some (min w n))}, ws)
  | .generalMetadata md dp _ =>
    if (kw.maxDigits.isSome && md.isSome) || (kw.decimalPlaces.isSome && dp.isSome) then
      .error (.fieldConversionError
        "Field has multiple max_digits or decimal_places conflicting constraints.")
    else
      let kw := match md with | some d => {kw with maxDigits := some d} | none => kw
      let kw := match dp with | some d => {kw with decimalPlaces := some d} | none => kw
      .ok (kw, ws)
  | .ge v =>
    if kw.minValue.isSome then
      .error (.fieldConversionError "Field has multiple conflicting min_value constraints")
    else
      match v with
      | .num q => .ok ({kw with minValue := some q}, ws)
      | .nonNumeric => .ok (kw, ws)
  | .gt v =>
    if kw.minValue.isSome then
      .error (.fieldConversionError "Field has multiple conflicting min_value constraints")
    else
      let ws := ws ++ [.gtNotSupported]
      match v with
      | .num q => .ok ({kw with minValue := some q}, ws)
      | .nonNumeric => .ok (kw, ws)
  | .le v =>
    if kw.maxValue.isSome then
      .error (.fieldConversionError "Field has multiple conflicting max_value constraints")
    else
      match v with
      | .num q => .ok ({kw with maxValue := some q}, ws)
      | .nonNumeric => .ok (kw, ws)
  | .lt v =>
    if kw.maxValue.isSome then
      .error (.fieldConversionError "Field has multiple conflicting max_value constraints")
    else
      let ws := ws ++ [.ltNotSupported]
      match v with
      | .num q => .ok ({kw with maxValue := some q}, ws)
      | .nonNumeric => .ok (kw, ws)
  | .manualDrfField _ => .ok (kw, ws)
  | .otherItem => .ok (kw, ws)

/-- The whole constraint-folding loop of `_convert_field` over the field's
metadata list. -/
def processConstraints : List MetaItem → Kwargs → List Warning →
    Except PyErr (Kwargs × List Warning)
  | [], kw, ws => .ok (kw, ws)
  | item :: rest, kw, ws =>
    match applyConstraint kw ws item with
    | .error e => .error e
    | .ok (kw, ws) => processConstraints rest kw ws

/-- The tail of the scalar branch of `_convert_type` (parse.py lines
405-416): the string `allow_blank` handling followed by the `FIELD_MAP`
mro-lookup loop. -/
def scalarFallback (t : PType) (kw : Kwargs) : Except PyErr DrfField :=
  let kw :=
    if isEmailOrUrl t then {kw with allowBlank := some false}
    else if isStrSub t then {kw with allowBlank := some (minLenBlankOk kw.minLength)}
    else kw
  match fieldMapMro t with
  | some k => .ok (.basic k kw)
  | none =>
    .error (.fieldConversionError ((typeName t).getD "?" ++ " is not a supported scalar type."))

/-- Outcome of the tuple shape test of `_convert_type` (parse.py lines
430-451): which element the produced list field converts as its child,
rejection, or an `IndexError` from `type_args[0]`/`type_args[1]`. -/
inductive TupleCheck where
  | accept (elem : PType)
  | reject
  | ixErr

/-- `all(is_scalar(arg) for arg in type_args) and len(set(type_args)) == 1`
(the second `elif` of the tuple branch). -/
def tupleAllSame (args : List PType) : Bool :=
  args.all is_scalar && (match args with
    | [] => false
    | a :: rest => rest.all (scalarEqb a))

/-- The tuple shape test of `_convert_type`, mirroring the evaluation order
of `(len(type_args) == 2 and (is_scalar(type_args[0]) and type_args[1] is
Ellipsis)) or (type_args[0] is Ellipsis and is_scalar(type_args[1]))`
followed by the homogeneous-tuple `elif`.  Note the length guard belongs
only to the first disjunct. -/
def tupleShape : List PType → TupleCheck
  | [] => .ixErr
  | a0 :: rest =>
    if (a0 :: rest).length == 2 && is_scalar a0 &&
        (match rest with | a1 :: _ => isEllipsis a1 | [] => false) then
      .accept a0
    else if isEllipsis a0 then
      match rest with
      | [] => .ixErr
      | a1 :: _ =>
        if is_scalar a1 then .accept a0
        else if tupleAllSame (a0 :: rest) then .accept a0
        else .reject
    else
      if tupleAllSame (a0 :: rest) then .accept a0
      else .reject

/-- Requests of the combined conversion interpreter: a pending call of
`create_serializer_from_model` (`build`), its per-field loop (`fieldsLoop`),
`_convert_field` (`field`), `_convert_type` (`type`), or the remainder of
`_convert_type` after the union handling at its head (`typeCore`).  Each
request carries the registry state at call time. -/
inductive Request where
  | build (m : ModelId) (cfg : DrfConfig) (st : RegState)
  | fieldsLoop (m : ModelId) (cfg : DrfConfig) (rem : List (String × FieldInfo))
      (done : List (String × DrfField)) (errs : List (String × String))
      (warns : List Warning) (st : RegState)
  | field (fi : FieldInfo) (cfg : DrfConfig) (st : RegState)
  | type (t : PType) (fld : Option FieldInfo) (kw : Kwargs) (cfg : DrfConfig) (st : RegState)
  | typeCore (t : PType) (fld : Option FieldInfo) (kw : Kwargs) (cfg : DrfConfig) (st : RegState)

/-- Successful results of the conversion interpreter: a converted field
instance or a built serializer class, with the warnings emitted and the
updated registry state. -/
inductive AnswerOk where
  | field (f : DrfField) (w : List Warning) (st : RegState)
  | cls (c : SerializerClass) (w : List Warning) (st : RegState)
  deriving DecidableEq, Repr

abbrev Answer := Except PyErr AnswerOk

/-- The mutually recursive functions `create_serializer_from_model`,
`_convert_field` and `_convert_type` of parse.py, combined into one
interpreter that is structurally recursive on a fuel counter (Python's
recursion is unbounded; `PyErr.diverge` reports fuel exhaustion, and a run
that diverges for every fuel is a non-terminating Python run).  Every
construct is translated branch-for-branch from parse.py; see the doc
comments of the helper definitions for the line correspondences. -/
def convertAux (env : Env) (prec : Nat) : Nat → Request → Answer
  | 0, _ => .error .diverge
  | fuel + 1, req =>
    match req with
    | .build m cfg st =>
      -- parse.py 98-139: `if pydantic_model not in SERIALIZER_REGISTRY: ...`
      match regFind st.reg m with
      | some cls => .ok (.cls cls [] st)
      | none => convertAux env prec fuel (.fieldsLoop m cfg (getModel env m).fields [] [] [] st)
    | .fieldsLoop m cfg rem done errs warns st =>
      match rem with
      | [] =>
        -- parse.py 109-139: raise the aggregate error, or create and cache
        -- the serializer class.
        if errs.isEmpty then
          let cls : SerializerClass :=
            ⟨st.nextId, (getModel env m).mname ++ "Serializer", m, cfg, done⟩
          .ok (.cls cls warns ⟨regInsert st.reg m cls, st.nextId + 1⟩)
        else
          .error (.modelConversionError (modelErrMsg (getModel env m).mname errs))
      | (fname, fi) :: rest =>
        -- parse.py 104-108: convert each field, collecting only
        -- FieldConversionError per field; other exceptions propagate.
        match convertAux env prec fuel (.field fi cfg st) with
        | .ok (.field f w st') =>
            convertAux env prec fuel (.fieldsLoop m cfg rest (done ++ [(fname, f)]) errs (warns ++ w) st')
        | .error (.fieldConversionError msg) =>
            convertAux env prec fuel (.fieldsLoop m cfg rest done (errs ++ [(fname, msg)]) warns st)
        | .error e => .error e
        | .ok _ => .error .internal
    | .field fi cfg st =>
      -- parse.py 142-293 (_convert_field)
      match fi.metadata.filterMap (fun i => match i with
          | .manualDrfField f => some f | _ => none) with
      | [f] => .ok (.field f [] st)
      | [] =>
        let kw0 : Kwargs :=
          { required := some fi.required, default := fi.default,
            helpText := fi.description, label := fi.title }
        match processConstraints fi.metadata kw0 [] with
        | .error e => .error e
        | .ok (kw, ws) =>
          match convertAux env prec fuel (.type (FieldInfo.annotation fi) (some fi) kw cfg st) with
          | .ok (.field f w st') => .ok (.field f (ws ++ w) st')
          | .ok _ => .error .internal
          | .error e => .error e
      | _ =>
        .error (.fieldConversionError
          ("Field has multiple conflicting DRF serializer fields. " ++
           "Only one DRF serializer field can be provided per field."))
    | .type t fld kw cfg st =>
      -- parse.py 323-338: the union handling at the head of _convert_type.
      match get_union_members t with
      | some ms =>
        if ms.length > 2 || !(ms.any isNoneType) then
          .error (.fieldConversionError
            ("Field has Union type which cannot be converted to DRF Serializer: " ++
             reprType t ++ ". Only optional union (two types, one of which is None) is supported."))
        else
          match ms.filter (fun x => !(isNoneType x)) with
          | [] => .error .indexErr
          | t' :: _ => convertAux env prec fuel (.typeCore t' fld {kw with allowNull := some true} cfg st)
      | none => convertAux env prec fuel (.typeCore t fld {kw with allowNull := some false} cfg st)
    | .typeCore t fld kw cfg st =>
      -- parse.py 340-469: the rest of _convert_type.
      if isAliasT t then
        if isJsonValue t then .ok (.field (.jsonField kw) [] st)
        else .error (.fieldConversionError ((typeName t).getD "?" ++ " is not a supported TypeAliasType."))
      else if is_scalar t then
        if !(isClassP t) then
          match typeName t with
          | none => .error (.attributeErr "object has no attribute __name__")
          | some n =>
            .error (.fieldConversionError
              (n ++ " is not a supported scalar type. Only classes and TypeAliasType instances are supported."))
        else
          match t with
          | .drfModel m =>
            -- parse.py 356-357: `return type_.drf_serializer(**kwargs)`
            match attrFind env.drfAttr m with
            | some sid => .ok (.field (.serializerField kw sid m) [] st)
            | none => .error (.attributeErr "drf_serializer")
          | .plainModel m =>
            -- parse.py 358-359: build a serializer for the plain pydantic
            -- model through the registry and instantiate it.
            match convertAux env prec fuel (.build m cfg st) with
            | .ok (.cls cls w st') => .ok (.field (.serializerField kw cls.clsId m) w st')
            | .ok _ => .error .internal
            | .error e => .error e
          | _ =>
            if isDecimalT t then
              -- parse.py 361-367: `kwargs.get(...) or context.prec`
              let md := match kw.maxDigits with
                | some d => if d ≠ 0 then d else prec
                | none => prec
              let dp := match kw.decimalPlaces with
                | some d => if d ≠ 0 then d else prec
                | none => prec
              .ok (.field (.basic .decimalField {kw with maxDigits := some md, decimalPlaces := some dp}) [] st)
            else if hasPatternMeta fld then
              -- parse.py 369-399: the regex branch.
              let ps := collectPatterns fld
              if ps.length > 1 then
                .error (.fieldConversionError ("Field has multiple regex patterns: " ++ reprPatterns ps))
              else
                match ps with
                | [p] => .ok (.field (.regexField {kw with allowBlank := some p.matchesEmpty} p) [] st)
                | _ =>
                  match scalarFallback t kw with
                  | .ok f => .ok (.field f [] st)
                  | .error e => .error e
            else
              match isEnumT t with
              | some e =>
                -- parse.py 401-404: `ChoiceField(choices=[(item.value, item.value) ...])`
                .ok (.field (.choiceField kw (e.members.map fun p => .pair p.2 p.2)) [] st)
              | none =>
                match scalarFallback t kw with
                | .ok f => .ok (.field f [] st)
                | .error e => .error e
      else
        -- parse.py 419-469: composite types.
        match t with
        | .plist elem =>
          match convertAux env prec fuel (.type elem none {} cfg st) with
          | .ok (.field c w st') => .ok (.field (.listField {kw with allowEmpty := some true} c) w st')
          | .ok _ => .error .internal
          | .error e => .error e
        | .ptuple args =>
          match tupleShape args with
          | .ixErr => .error .indexErr
          | .reject =>
            .error (.fieldConversionError
              (reprType t ++ " is not a supported tuple type. " ++
               "Tuple annotation must meet one of the following conditions: " ++
               "(a) single scalar and single Ellipsis (e.g., tuple[int, ...]) or " ++
               "(b) multiple scalars of the same type (e.g., tuple[int, int])."))
          | .accept a =>
            match convertAux env prec fuel (.type a none {} cfg st) with
            | .ok (.field c w st') => .ok (.field (.listField {kw with allowEmpty := some true} c) w st')
            | .ok _ => .error .internal
            | .error e => .error e
        | .pdict k v =>
          if !(isStrExact k) then
            .error (.fieldConversionError
              (reprType t ++ " is not a supported dict type. " ++
               "Dict annotation must look like dict[str, <annotation>]."))
          else
            match convertAux env prec fuel (.type v none {} cfg st) with
            | .ok (.field c w st') => .ok (.field (.dictField {kw with allowEmpty := some true} c) w st')
            | .ok _ => .error .internal
            | .error e => .error e
        | .pliteral cs => .ok (.field (.choiceField kw (cs.map .single)) [] st)
        | _ =>
          .error (.fieldConversionError ((typeName t).getD "?" ++ " is not a supported composite type."))

/-- `parse.create_serializer_from_model`, with the registry threaded
explicitly and an explicit `drf_config` (the `None` default of the Python
signature falls back to the model's own attribute, which callers here pass
directly). -/
def create_serializer_from_model (env : Env) (prec : Nat) (fuel : Nat)
    (m : ModelId) (cfg : DrfConfig) (st : RegState) :
    Except PyErr (SerializerClass × List Warning × RegState) :=
  match convertAux env prec fuel (.build m cfg st) with
  | .ok (.cls c w st') => .ok (c, w, st')
  | .ok _ => .error .internal
  | .error e => .error e

/-- `parse._convert_field`. -/
def convert_field (env : Env) (prec : Nat) (fuel : Nat)
    (fi : FieldInfo) (cfg : DrfConfig) (st : RegState) :
    Except PyErr (DrfField × List Warning × RegState) :=
  match convertAux env prec fuel (.field fi cfg st) with
  | .ok (.field f w st') => .ok (f, w, st')
  | .ok _ => .error .internal
  | .error e => .error e

/-- Unpack a field-producing answer of the interpreter. -/
def fieldResult : Answer → Except PyErr (DrfField × List Warning × RegState)
  | .ok (.field f w st') => .ok (f, w, st')
  | .ok _ => .error .internal
  | .error e => .error e

/-- `parse._convert_type`. -/
def convert_type (env : Env) (prec : Nat) (fuel : Nat)
    (t : PType) (fld : Option FieldInfo) (kw : Kwargs) (cfg : DrfConfig) (st : RegState) :
    Except PyErr (DrfField × List Warning × RegState) :=
  fieldResult (convertAux env prec fuel (.type t fld kw cfg st))

namespace Legacy

/-- The legacy `base_model.FIELD_MAP` (the pydantic-v1 module in this tree):
a direct dict lookup, without the mro walk of `parse.FIELD_MAP`. -/
def fieldMap : PType → Option BasicKind
  | .pbool => some .booleanField
  | .pstr => some .charField
  | .emailStr => some .emailField
  | .phttpUrl => some .urlField
  | .pint => some .integerField
  | .pfloat => some .floatField
  | .pdecimal => some .decimalField
  | .pdate => some .dateField
  | .ptime => some .timeField
  | .pdatetime => some .dateTimeField
  | .ptimedelta => some .durationField
  | _ => none

/-- The result of the legacy `base_model._convert_type`: a serializer field
class (the legacy function returns classes, not instances). -/
inductive FieldCls where
  | basic (k : BasicKind)
  | drfSerializer (clsId : Nat)
  deriving DecidableEq, Repr

/-- `base_model._convert_type` (base_model.py lines 106-143): a nested
`drf_pydantic.BaseModel` returns the class's `drf_serializer` attribute; a
*plain* pydantic model raises `TypeError`; otherwise the legacy `FIELD_MAP`
lookup, with `KeyError` re-raised as `NotImplementedError`. -/
def convert_type (env : Env) : PType → Except PyErr FieldCls
  | .drfModel m =>
    (match attrFind env.drfAttr m with
     | some sid => .ok (.drfSerializer sid)
     | none => .error (.attributeErr "drf_serializer"))
  | .plainModel m =>
    .error (.typeErr ("Model " ++ (getModel env m).mname ++
      " is a normal pydantic model. All nested models must be inherited from drf_pydantic.BaseModel"))
  | t =>
    match fieldMap t with
    | some k => .ok (.basic k)
    | none => .error (.notImplementedErr ((typeName t).getD "?" ++ " is not yet supported"))

end Legacy

/-! ## `fields.EnumField` -/

/-- An input to `EnumField` validation: an enum member object (identified by
its enum class name and member name) or a plain value. -/
inductive EnumInput where
  | member (ename mname : String)
  | val (v : Value)
  deriving DecidableEq, Repr

/-- Python `choice == data` for a member named `n` of the plain enum `e`:
members of a plain `enum.Enum` compare equal only to themselves. -/
def memberEqData (e : EnumDef) (n : String) (data : EnumInput) : Bool :=
  match data with
  | .member en mn => en == e.ename && mn == n
  | .val _ => false

/-- Python `choice.name == data` (a string compared with the data). -/
def memberNameEqData (n : String) (data : EnumInput) : Bool :=
  match data with
  | .val (.vstr s) => s == n
  | _ => false

/-- Python `choice.value == data`. -/
def memberValueEqData (v : Value) (data : EnumInput) : Bool :=
  match data with
  | .val w => w == v
  | _ => false

/-- `EnumField.to_internal_value` (fields.py lines 35-39): the first member
matching the data by object, name, or value; otherwise
`self.fail("invalid")` with the field's "No matching enum type" message. -/
def enumToInternalValue (e : EnumDef) (data : EnumInput) :
    Except String (String × Value) :=
  match e.members.find? (fun p =>
      memberEqData e p.1 data || memberNameEqData p.1 data ||
        memberValueEqData p.2 data) with
  | some p => .ok p
  | none => .error "No matching enum type"

/-- `EnumField.to_representation` (fields.py lines 41-45): a member of the
field's enum renders as its value, anything else passes through. -/
def enumToRepresentation (e : EnumDef) (value : EnumInput) : EnumInput :=
  match value with
  | .member en mn =>
    if en == e.ename then
      match e.members.find? (fun p => p.1 == mn) with
      | some p => .val p.2
      | none => .member en mn
    else .member en mn
  | .val v => .val v

/-- Python truthiness of the data argument of `EnumField.run_validation`
(`if data and data != empty ...`). -/
def enumInputTruthy : EnumInput → Bool
  | .member _ _ => true
  | .val (.vstr s) => !(s == "")
  | .val (.vint n) => !(n == 0)
  | .val (.vbool b) => b
  | .val .vnone => false
  | .val _ => true

/-- The pre-check of `EnumField.run_validation` (fields.py lines 22-33):
truthy data that is not a member of the field's enum must equal some
member's *value* — name strings are not consulted here — otherwise the
field fails with "No matching enum type" before `to_internal_value` runs. -/
def enumRunValidationPre (e : EnumDef) (data : EnumInput) : Except String Unit :=
  let isMember : Bool := match data with
    | .member en _ => en == e.ename
    | .val _ => false
  if enumInputTruthy data && !isMember then
    if e.members.any (fun p => memberValueEqData p.2 data) then .ok ()
    else .error "No matching enum type"
  else .ok ()

/-! ## `base_serializer.DrfPydanticSerializer.validate` -/

/-- A segment of a pydantic error location path (`error["loc"]` holds
strings and ints). -/
inductive LocSeg where
  | s (name : String)
  | i (n : Int)
  deriving DecidableEq, Repr

/-- One entry of `pydantic.ValidationError.errors()`. -/
structure PydanticError where
  loc : List LocSeg
  msg : String
  etype : String
  deriving DecidableEq, Repr

/-- Outcome of `self._pydantic_model(**attrs)`: a constructed instance
(modelled by its attribute map) or a `pydantic.ValidationError` carrying its
error list.  The pydantic model is an external collaborator, so its outcome
is an input of `validate`. -/
inductive PydOutcome where
  | ok (inst : List (String × Value))
  | fail (errors : List PydanticError)
  deriving DecidableEq, Repr

/-- JSON rendering of one location segment. -/
def renderLocSeg : LocSeg → String
  | .s n => "\"" ++ n ++ "\""
  | .i n => toString n

/-- JSON rendering of a location path. -/
def renderLoc (loc : List LocSeg) : String :=
  "[" ++ String.intercalate ", " (loc.map renderLocSeg) ++ "]"

/-- The message `json.dumps({"loc": ..., "msg": ..., "type": ...})` built by
`validate` for each pydantic error (JSON string escaping inside the message
text is not modelled). -/
def encodeError (e : PydanticError) : String :=
  let l := renderLoc e.loc
  "\x7b\"loc\": " ++ l ++ ", \"msg\": \"" ++ e.msg ++ "\", \"type\": \"" ++
    e.etype ++ "\"\x7d"

/-- The field-attribution test of `validate` (base_serializer.py lines
63-69): an error is field-level iff its location is non-empty, starts with
a string segment, and that segment names a serializer field; the result is
its bucket key (`none` meaning the global bucket). -/
def errKey (fields : List String) (e : PydanticError) : Option String :=
  match e.loc with
  | .s n :: _ => if fields.contains n then some n else none
  | _ => none

/-- `field_errors.setdefault(key, []).append(message)`. -/
def addBucket : List (String × List String) → String → String →
    List (String × List String)
  | [], k, m => [(k, [m])]
  | (k', ms) :: rest, k, m =>
    if k' == k then (k', ms ++ [m]) :: rest else (k', ms) :: addBucket rest k m

/-- Dict assignment: replace the value in place when the key exists,
append otherwise. -/
def dictAssign : List (String × List String) → String → List String →
    List (String × List String)
  | [], k, v => [(k, v)]
  | (k', v') :: rest, k, v =>
    if k' == k then (k', v) :: rest else (k', v') :: dictAssign rest k v

/-- One iteration of the grouping loop of `validate`: a field-level error is
appended to its field's bucket, a global error to the `non_field_errors`
list. -/
def groupStep (fields : List String)
    (acc : List (String × List String) × List String) (e : PydanticError) :
    List (String × List String) × List String :=
  match errKey fields e with
  | some k => (addBucket acc.1 k (encodeError e), acc.2)
  | none => (acc.1, acc.2 ++ [encodeError e])

/-- The grouping loop of `validate` over the pydantic errors, producing the
`field_errors` dict and the `non_field_errors` list. -/
def groupErrors (fields : List String) (errors : List PydanticError) :
    List (String × List String) × List String :=
  errors.foldl (groupStep fields) ([], [])

/-- The aggregate raised by `validate` under `validation_error == "drf"`:
the dict literal `{NON_FIELD_ERRORS_KEY: non_field_errors, **field_errors}`.
A field bucket keyed exactly like the global key overwrites the global
bucket, as the `**` merge does in Python. -/
def translateErrors (fields : List String) (nonFieldKey : String)
    (errors : List PydanticError) : List (String × List String) :=
  (groupErrors fields errors).1.foldl (fun d p => dictAssign d p.1 p.2)
    [(nonFieldKey, (groupErrors fields errors).2)]

/-- Errors raised by `validate`: the re-raised pydantic `ValidationError`,
DRF's `serializers.ValidationError` with the translated detail, or the
`AssertionError` from `assert ... == "drf"` when `validation_error` is unset
while dual validation is on. -/
inductive ValidateErr where
  | pydanticError (errors : List PydanticError)
  | drfValidationError (detail : List (String × List String))
  | assertionErr
  deriving DecidableEq, Repr

/-- `isinstance(pydantic_value, pydantic.BaseModel)` → `model_dump()` during
back-population. -/
def flattenValue : Value → Value
  | .vmodel m => .vdump m
  | v => v

/-- `DrfPydanticSerializer.validate` (base_serializer.py lines 38-99).
`fields` are the serializer's field names, `nonFieldKey` the DRF
`NON_FIELD_ERRORS_KEY` setting, `attrs` the output of the serializer's own
(already passed) validation, and `outcome` the result of constructing the
pydantic model from `attrs`.  `super().validate` is the identity. -/
def serializerValidate (cfg : DrfConfig) (fields : List String)
    (nonFieldKey : String) (attrs : List (String × Value))
    (outcome : PydOutcome) : Except ValidateErr (List (String × Value)) :=
  if !(cfg.validate_pydantic.getD false) then .ok attrs
  else
    match outcome with
    | .fail errors =>
      match cfg.validation_error with
      | some .pydantic => .error (.pydanticError errors)
      | some .drf => .error (.drfValidationError (translateErrors fields nonFieldKey errors))
      | none => .error .assertionErr
    | .ok inst =>
      if cfg.backpopulate_after_validation.getD false then
        .ok (attrs.map fun p =>
          match inst.lookup p.1 with
          | some pv => (p.1, flattenValue pv)
          | none => p)
      else .ok attrs

/-! ## Config resolution (spec-modelled) -/

/-- Modelled from the spec: the drf-pydantic v2 `ModelMetaclass` — the part
of `base_model.py` that resolves and attaches `drf_config`, which is absent
from this source tree (only its legacy pydantic-v1 predecessor is present)
— produces a fully populated config.  Spec §3 (ConfigBundle): "Inherited by
nearest-wins priority: explicit value on the model itself > inherited from
its immediate parent > global default (validate_against_source=false,
error_authority=derived, backpopulate=true)." -/
structure ResolvedDrfConfig where
  validate_pydantic : Bool
  validation_error : ErrAuthority
  backpopulate_after_validation : Bool
  deriving DecidableEq, Repr

/-- Modelled from the spec: nearest-wins resolution of one model's config
against its immediate parent's, with the global defaults filling the rest. -/
def resolveDrfConfig (own parent : DrfConfig) : ResolvedDrfConfig :=
  { validate_pydantic :=
      (match own.validate_pydantic with
       | some b => some b
       | none => parent.validate_pydantic).getD false
    validation_error :=
      (match own.validation_error with
       | some a => some a
       | none => parent.validation_error).getD .drf
    backpopulate_after_validation :=
      (match own.backpopulate_after_validation with
       | some b => some b
       | none => parent.backpopulate_after_validation).getD true }

/-- The fully populated `drf_config` dict attached to a generated
serializer after resolution. -/
def ResolvedDrfConfig.toDict (c : ResolvedDrfConfig) : DrfConfig :=
  { validate_pydantic := some c.validate_pydantic
    validation_error := some c.validation_error
    backpopulate_after_validation := some c.backpopulate_after_validation }

/-- The default `choices` of `EnumField.__init__` (fields.py line 19):
`[(x, x.name) for x in self.enum]` — members paired with their *names*. -/
def enumFieldDefaultChoices (e : EnumDef) : List Choice :=
  e.members.map fun p => .pair (.vEnumMember e.ename p.1) (.vstr p.1)

/-! ## Shared concrete examples -/

/-- A model with fields `name: str` and `age: int`. -/
def personEnv : Env :=
  { models := [⟨"Person", [("name", { annotation := .pstr}), ("age", { annotation := .pint})]⟩] }

/-- The serializer class built for `personEnv`. -/
def personCls : SerializerClass :=
  ⟨0, "PersonSerializer", 0, {},
    [("name", .basic .charField
        {required := some true, allowNull := some false, allowBlank := some true}),
     ("age", .basic .integerField {required := some true, allowNull := some false})]⟩

/-- A self-referential plain pydantic model: its field `parent` is annotated
with the model itself. -/
def recEnv : Env :=
  { models := [⟨"Rec", [("parent", { annotation := .plainModel 0})]⟩] }

/-! ## C4: registry ordering for self-referential models -/

/-- On an empty registry, building the self-referential model exhausts every
recursion bound: the registry slot for the model is not reserved before its
fields are converted, so the nested conversion re-enters the build with the
registry still empty. -/
lemma recEnv_build_diverge (prec : Nat) (cfg : DrfConfig) :
    ∀ fuel, convertAux recEnv prec fuel (.build 0 cfg {}) = .error .diverge := by
  intro fuel
  induction fuel using Nat.strong_induction_on with
  | _ fuel ih =>
    match fuel with
    | 0 => rfl
    | 1 => rfl
    | 2 => rfl
    | 3 => rfl
    | 4 => rfl
    | (n + 5) =>
      have h := ih n (by omega)
      simp only [recEnv] at h
      simp [convertAux, recEnv, regFind, getModel, processConstraints, applyConstraint,
        get_union_members, isAliasT, is_scalar, isClassP, isNoneType, isDecimalT,
        hasPatternMeta, isEnumT, h]

/-- C4 (amended): `create_serializer_from_model` registers a model only
*after* all of its fields are converted; no registry slot is reserved before
the conversion recurses, so building a serializer for a self-referential
plain pydantic model recurses unboundedly — it exhausts every recursion
bound instead of terminating via a reserved entry. -/
theorem claim_C4_thm (prec fuel : Nat) (cfg : DrfConfig) :
    create_serializer_from_model recEnv prec fuel 0 cfg {} = .error .diverge := by
  unfold create_serializer_from_model
  rw [recEnv_build_diverge prec cfg fuel]

/-- C4 counterexample: for the concrete self-referential model, the build on
an empty registry is still recursing after 80 nested calls — it never hits a
reserved or cached registry entry, contradicting the claimed two-phase
reservation and termination. -/
theorem claim_C4_counterexample :
    create_serializer_from_model recEnv 28 80 0 {} {} = .error .diverge := by rfl

theorem claim_C4_witness :
    create_serializer_from_model recEnv 28 50 0 {} {} = .error .diverge :=
  claim_C4_thm 28 50 {}

/-! ## C1: registry idempotence -/

lemma regFind_regInsert_self (reg : List (ModelId × SerializerClass)) (m : ModelId)
    (c : SerializerClass) : regFind (regInsert reg m c) m = some c := by
  induction reg with
  | nil => simp [regInsert, regFind]
  | cons p rest ih =>
    obtain ⟨k, v⟩ := p
    by_cases h : k = m <;> simp [regInsert, regFind, h, ih]

/-- A successful pass through the per-field loop ends with the freshly built
class stored in the registry under the model's key. -/
lemma fieldsLoop_ok_regFind (env : Env) (prec : Nat) :
    ∀ fuel m cfg rem done errs warns st c w st',
      convertAux env prec fuel (.fieldsLoop m cfg rem done errs warns st) = .ok (.cls c w st') →
      regFind st'.reg m = some c := by
  intro fuel
  induction fuel with
  | zero =>
    intro m cfg rem done errs warns st c w st' h
    exact absurd h (by simp [convertAux])
  | succ fuel ih =>
    intro m cfg rem done errs warns st c w st' h
    match rem with
    | [] =>
      by_cases he : errs.isEmpty
      · simp [convertAux, he] at h
        obtain ⟨h1, _, h3⟩ := h
        rw [← h3, ← h1]
        exact regFind_regInsert_self st.reg m _
      · simp [convertAux, he] at h
    | (fname, fi) :: rest =>
      rcases hx : convertAux env prec fuel (.field fi cfg st) with e | a
      · match e with
        | .fieldConversionError msg =>
          simp [convertAux, hx] at h
          exact ih _ _ _ _ _ _ _ _ _ _ h
        | .modelConversionError msg => simp [convertAux, hx] at h
        | .typeErr msg => simp [convertAux, hx] at h
        | .attributeErr msg => simp [convertAux, hx] at h
        | .notImplementedErr msg => simp [convertAux, hx] at h
        | .indexErr => simp [convertAux, hx] at h
        | .diverge => simp [convertAux, hx] at h
        | .internal => simp [convertAux, hx] at h
      · rcases a with ⟨f, w', st''⟩ | ⟨c', w', st''⟩
        · simp [convertAux, hx] at h
          exact ih _ _ _ _ _ _ _ _ _ _ h
        · simp [convertAux, hx] at h

/-- A successful build leaves the registry of the returned state mapping the
model to the returned class. -/
lemma build_ok_regFind (env : Env) (prec : Nat) (fuel : Nat) (m : ModelId)
    (cfg : DrfConfig) (st : RegState) (c : SerializerClass) (w : List Warning)
    (st' : RegState)
    (h : convertAux env prec fuel (.build m cfg st) = .ok (.cls c w st')) :
    regFind st'.reg m = some c := by
  match fuel with
  | 0 => exact absurd h (by simp [convertAux])
  | fuel + 1 =>
    rcases hr : regFind st.reg m with _ | cls
    · rw [show convertAux env prec (fuel + 1) (.build m cfg st) =
          convertAux env prec fuel (.fieldsLoop m cfg (getModel env m).fields [] [] [] st) by
        simp [convertAux, hr]] at h
      exact fieldsLoop_ok_regFind env prec fuel m cfg _ _ _ _ _ _ _ _ h
    · simp [convertAux, hr] at h
      obtain ⟨h1, _, h3⟩ := h
      rw [← h3, ← h1]
      exact hr

/-- C1: calling the registry build operation twice with the same source
model returns the identical (same class identity) serializer class both
times; the second call hits the cache and leaves the registry state
untouched — no rebuild, no fresh class identity. -/
theorem claim_C1 (env : Env) (prec fuel : Nat) (m : ModelId) (cfg : DrfConfig)
    (st : RegState) (c : SerializerClass) (w : List Warning) (st' : RegState)
    (h : create_serializer_from_model env prec fuel m cfg st = .ok (c, w, st'))
    (fuel' : Nat) (hf : 0 < fuel') :
    create_serializer_from_model env prec fuel' m cfg st' = .ok (c, [], st') := by
  have hb : convertAux env prec fuel (.build m cfg st) = .ok (.cls c w st') := by
    unfold create_serializer_from_model at h
    rcases hx : convertAux env prec fuel (.build m cfg st) with e | a
    · rw [hx] at h; exact absurd h (by simp)
    · rcases a with ⟨f, w', st''⟩ | ⟨c', w', st''⟩
      · rw [hx] at h; exact absurd h (by simp)
      · rw [hx] at h
        simp only [Except.ok.injEq, Prod.mk.injEq] at h
        obtain ⟨rfl, rfl, rfl⟩ := h
        rfl
  have hr := build_ok_regFind env prec fuel m cfg st c w st' hb
  obtain ⟨k, rfl⟩ : ∃ k, fuel' = k + 1 := ⟨fuel' - 1, by omega⟩
  simp [create_serializer_from_model, convertAux, hr]

theorem claim_C1_witness :
    create_serializer_from_model personEnv 28 1 0 {} ⟨[(0, personCls)], 1⟩ =
      .ok (personCls, [], ⟨[(0, personCls)], 1⟩) :=
  claim_C1 personEnv 28 9 0 {} {} personCls [] ⟨[(0, personCls)], 1⟩ rfl 1 (by decide)

/-! ## C6: numeric bound folding -/

/-- A model whose single field `age: int` carries `ge=69` followed by
`gt=69` (spec scenario C). -/
def geGtEnv : Env :=
  { models := [⟨"Person",
      [("age", { annotation := .pint, metadata := [.ge (.num 69), .gt (.num 69)]})]⟩] }

/-- C6: an exclusive bound (`gt`/`lt`) folds to an inclusive
`min_value`/`max_value` at the same threshold and always emits the "not
supported by DRF" warning (also when the value is not Decimal-castable); a
second bound constraining the same side raises the hard
FieldConversionError naming the conflicting `min_value` (resp. `max_value`)
constraints; at model level the `ge=69` then `gt=69` field surfaces as a
ModelConversionError naming the conflict. -/
theorem claim_C6_thm (q q1 : Rat) (v v' : NumBound) (kw : Kwargs)
    (hmin : kw.minValue = none) (hmax : kw.maxValue = none) :
    (processConstraints [.gt (.num q)] kw [] =
       .ok ({kw with minValue := some q}, [.gtNotSupported]))
  ∧ (processConstraints [.lt (.num q)] kw [] =
       .ok ({kw with maxValue := some q}, [.ltNotSupported]))
  ∧ (processConstraints [.gt .nonNumeric] kw [] = .ok (kw, [.gtNotSupported]))
  ∧ (processConstraints [.ge (.num q1), .gt v] kw [] =
       .error (.fieldConversionError "Field has multiple conflicting min_value constraints"))
  ∧ (processConstraints [.le (.num q1), .lt v'] kw [] =
       .error (.fieldConversionError "Field has multiple conflicting max_value constraints"))
  ∧ (create_serializer_from_model geGtEnv 28 9 0 {} {} =
       .error (.modelConversionError
         "Error when converting model: Person\n  age\n    Field has multiple conflicting min_value constraints")) := by
  refine ⟨?_, ?_, ?_, ?_, ?_, ?_⟩
  · simp [processConstraints, applyConstraint, hmin]
  · simp [processConstraints, applyConstraint, hmax]
  · simp [processConstraints, applyConstraint, hmin]
  · simp [processConstraints, applyConstraint, hmin]
  · simp [processConstraints, applyConstraint, hmax]
  · rfl

theorem claim_C6_witness :
    (processConstraints [.gt (.num 1)] {} [] =
       .ok ({minValue := some 1}, [.gtNotSupported]))
  ∧ (processConstraints [.lt (.num 1)] {} [] =
       .ok ({maxValue := some 1}, [.ltNotSupported]))
  ∧ (processConstraints [.gt .nonNumeric] {} [] = .ok ({}, [.gtNotSupported]))
  ∧ (processConstraints [.ge (.num 2), .gt (.num 3)] {} [] =
       .error (.fieldConversionError "Field has multiple conflicting min_value constraints"))
  ∧ (processConstraints [.le (.num 2), .lt .nonNumeric] {} [] =
       .error (.fieldConversionError "Field has multiple conflicting max_value constraints"))
  ∧ (create_serializer_from_model geGtEnv 28 9 0 {} {} =
       .error (.modelConversionError
         "Error when converting model: Person\n  age\n    Field has multiple conflicting min_value constraints")) :=
  claim_C6_thm 1 2 (.num 3) .nonNumeric {} rfl rfl

/-! ## C10: allow_blank for text fields -/

/-- C10: for a plain `str` (or `str` subclass) field with no regex pattern,
the produced CharField permits blank exactly when the folded `min_length`
key is absent or equal to 0 — a `StringConstraints` item with an unset
minimum stores `None` under the key, which forbids blank; email and URL
fields always get `allow_blank=False`. -/
theorem claim_C10_thm (kw : Kwargs) (fld : Option FieldInfo) (cn : String)
    (env : Env) (prec fuel : Nat) (cfg : DrfConfig) (st : RegState)
    (hpat : hasPatternMeta fld = false) :
    (convert_type env prec (fuel + 2) .pstr fld kw cfg st =
       .ok (.basic .charField
         {kw with allowNull := some false, allowBlank := some (minLenBlankOk kw.minLength)},
         [], st))
  ∧ (convert_type env prec (fuel + 2) (.strSubclass cn) fld kw cfg st =
       .ok (.basic .charField
         {kw with allowNull := some false, allowBlank := some (minLenBlankOk kw.minLength)},
         [], st))
  ∧ (convert_type env prec (fuel + 2) .emailStr fld kw cfg st =
       .ok (.basic .emailField
         {kw with allowNull := some false, allowBlank := some false}, [], st))
  ∧ (convert_type env prec (fuel + 2) .purl fld kw cfg st =
       .ok (.basic .urlField
         {kw with allowNull := some false, allowBlank := some false}, [], st))
  ∧ (convert_type env prec (fuel + 2) .phttpUrl fld kw cfg st =
       .ok (.basic .urlField
         {kw with allowNull := some false, allowBlank := some false}, [], st))
  ∧ (minLenBlankOk none = true ∧ minLenBlankOk (some (some 0)) = true
       ∧ minLenBlankOk (some none) = false
       ∧ ∀ v : Int, v ≠ 0 → minLenBlankOk (some (some v)) = false)
  ∧ (processConstraints [.stringConstraints none (some 5) none] {} [] =
       .ok ({minLength := some none, maxLength := some (some 5)}, [])) := by
  refine ⟨?_, ?_, ?_, ?_, ?_, ⟨rfl, rfl, rfl, ?_⟩, ?_⟩
  · simp [convert_type, fieldResult, convertAux, get_union_members, isAliasT, is_scalar, isClassP,
      isDecimalT, isEnumT, scalarFallback, isEmailOrUrl, isStrSub, fieldMapMro, hpat]
  · simp [convert_type, fieldResult, convertAux, get_union_members, isAliasT, is_scalar, isClassP,
      isDecimalT, isEnumT, scalarFallback, isEmailOrUrl, isStrSub, fieldMapMro, hpat]
  · simp [convert_type, fieldResult, convertAux, get_union_members, isAliasT, is_scalar, isClassP,
      isDecimalT, isEnumT, scalarFallback, isEmailOrUrl, isStrSub, fieldMapMro, hpat]
  · simp [convert_type, fieldResult, convertAux, get_union_members, isAliasT, is_scalar, isClassP,
      isDecimalT, isEnumT, scalarFallback, isEmailOrUrl, isStrSub, fieldMapMro, hpat]
  · simp [convert_type, fieldResult, convertAux, get_union_members, isAliasT, is_scalar, isClassP,
      isDecimalT, isEnumT, scalarFallback, isEmailOrUrl, isStrSub, fieldMapMro, hpat]
  · intro v hv
    simp [minLenBlankOk, hv]
  · rfl

theorem claim_C10_witness :
    (convert_type personEnv 28 2 .pstr none {minLength := some (some 3)} {} {} =
       .ok (.basic .charField
         {minLength := some (some 3), allowNull := some false,
           allowBlank := some (minLenBlankOk (some (some 3)))},
         [], {}))
  ∧ (convert_type personEnv 28 2 (.strSubclass "MyStr") none {minLength := some (some 3)} {} {} =
       .ok (.basic .charField
         {minLength := some (some 3), allowNull := some false,
           allowBlank := some (minLenBlankOk (some (some 3)))},
         [], {}))
  ∧ (convert_type personEnv 28 2 .emailStr none {minLength := some (some 3)} {} {} =
       .ok (.basic .emailField
         {minLength := some (some 3), allowNull := some false, allowBlank := some false},
         [], {}))
  ∧ (convert_type personEnv 28 2 .purl none {minLength := some (some 3)} {} {} =
       .ok (.basic .urlField
         {minLength := some (some 3), allowNull := some false, allowBlank := some false},
         [], {}))
  ∧ (convert_type personEnv 28 2 .phttpUrl none {minLength := some (some 3)} {} {} =
       .ok (.basic .urlField
         {minLength := some (some 3), allowNull := some false, allowBlank := some false},
         [], {}))
  ∧ (minLenBlankOk none = true ∧ minLenBlankOk (some (some 0)) = true
       ∧ minLenBlankOk (some none) = false
       ∧ ∀ v : Int, v ≠ 0 → minLenBlankOk (some (some v)) = false)
  ∧ (processConstraints [.stringConstraints none (some 5) none] {} [] =
       .ok ({minLength := some none, maxLength := some (some 5)}, [])) :=
  claim_C10_thm {minLength := some (some 3)} none "MyStr" personEnv 28 0 {} {} rfl

/-! ## C9: tuple shapes -/

/-- C9 (amended): tuple conversion accepts (a) exactly one scalar followed
by the repetition marker, and (b) *one* or more positions all of the same
scalar type (a single-element tuple is accepted, unlike the claim's "two or
more"), producing a list field over that scalar; heterogeneous tuples raise
the hard conversion error; a shape with the repetition marker *first*
passes the tuple-shape check and then fails converting the marker as the
child element — an AttributeError, not a field-attributed conversion
error. -/
theorem claim_C9_thm (env : Env) (prec fuel : Nat) (cfg : DrfConfig)
    (st : RegState) (kw : Kwargs) :
    (convert_type env prec (fuel + 4) (.ptuple [.pint, .ellipsisObj]) none kw cfg st =
       .ok (.listField {kw with allowNull := some false, allowEmpty := some true}
              (.basic .integerField {allowNull := some false}), [], st))
  ∧ (convert_type env prec (fuel + 4) (.ptuple [.pint]) none kw cfg st =
       .ok (.listField {kw with allowNull := some false, allowEmpty := some true}
              (.basic .integerField {allowNull := some false}), [], st))
  ∧ (convert_type env prec (fuel + 4) (.ptuple [.pint, .pint, .pint]) none kw cfg st =
       .ok (.listField {kw with allowNull := some false, allowEmpty := some true}
              (.basic .integerField {allowNull := some false}), [], st))
  ∧ (∃ msg, convert_type env prec (fuel + 4) (.ptuple [.pint, .pstr]) none kw cfg st =
       .error (.fieldConversionError msg))
  ∧ (convert_type env prec (fuel + 4) (.ptuple [.ellipsisObj, .pint]) none kw cfg st =
       .error (.attributeErr "object has no attribute __name__")) := by
  exact ⟨rfl, rfl, rfl, ⟨_, rfl⟩, rfl⟩

/-- C9 counterexample: a single-position tuple (outside both claimed
accepted shapes) converts successfully, and a marker-first tuple raises an
AttributeError instead of the claimed hard conversion error. -/
theorem claim_C9_counterexample :
    (convert_type personEnv 28 10 (.ptuple [.pint]) none {} {} {} =
       .ok (.listField {allowNull := some false, allowEmpty := some true}
              (.basic .integerField {allowNull := some false}), [], {}))
  ∧ (convert_type personEnv 28 10 (.ptuple [.ellipsisObj, .pint]) none {} {} {} =
       .error (.attributeErr "object has no attribute __name__")) :=
  ⟨rfl, rfl⟩

theorem claim_C9_witness :
    (convert_type personEnv 28 4 (.ptuple [.pint, .ellipsisObj]) none {} {} {} =
       .ok (.listField {allowNull := some false, allowEmpty := some true}
              (.basic .integerField {allowNull := some false}), [], {}))
  ∧ (convert_type personEnv 28 4 (.ptuple [.pint]) none {} {} {} =
       .ok (.listField {allowNull := some false, allowEmpty := some true}
              (.basic .integerField {allowNull := some false}), [], {}))
  ∧ (convert_type personEnv 28 4 (.ptuple [.pint, .pint, .pint]) none {} {} {} =
       .ok (.listField {allowNull := some false, allowEmpty := some true}
              (.basic .integerField {allowNull := some false}), [], {}))
  ∧ (∃ msg, convert_type personEnv 28 4 (.ptuple [.pint, .pstr]) none {} {} {} =
       .error (.fieldConversionError msg))
  ∧ (convert_type personEnv 28 4 (.ptuple [.ellipsisObj, .pint]) none {} {} {} =
       .error (.attributeErr "object has no attribute __name__")) :=
  claim_C9_thm personEnv 28 0 {} {} {}

/-! ## C5: plain pydantic nested models -/

/-- A plain pydantic model `Plain` with one field `x: int`. -/
def plainNestedEnv : Env :=
  { models := [⟨"Plain", [("x", { annotation := .pint})]⟩] }

/-- The serializer class built for `plainNestedEnv`. -/
def plainCls : SerializerClass :=
  ⟨0, "PlainSerializer", 0, {},
    [("x", .basic .integerField {required := some true, allowNull := some false})]⟩

/-- C5 (amended): the current conversion path (parse.py) *converts* a plain
pydantic nested model, building its serializer through the registry and
returning a nested serializer field; only the legacy conversion path
(base_model.py) raises the hard "normal pydantic model" TypeError. -/
theorem claim_C5_thm (env : Env) (prec fuel : Nat) (m : ModelId) (cfg : DrfConfig)
    (st : RegState) (kw : Kwargs) (fld : Option FieldInfo)
    (c : SerializerClass) (w : List Warning) (st' : RegState)
    (h : convertAux env prec fuel (.build m cfg st) = .ok (.cls c w st')) :
    (convert_type env prec (fuel + 2) (.plainModel m) fld kw cfg st =
       .ok (.serializerField {kw with allowNull := some false} c.clsId m, w, st'))
  ∧ (Legacy.convert_type env (.plainModel m) =
       .error (.typeErr ("Model " ++ (getModel env m).mname ++
         " is a normal pydantic model. All nested models must be inherited from drf_pydantic.BaseModel"))) := by
  constructor
  · simp [convert_type, fieldResult, convertAux, get_union_members, isAliasT, is_scalar, isClassP, h]
  · rfl

/-- C5 counterexample: converting a field annotated with a concrete plain
pydantic model succeeds (parse.py builds and instantiates a serializer for
it) instead of raising the claimed hard configuration error. -/
theorem claim_C5_counterexample :
    convert_type plainNestedEnv 28 10 (.plainModel 0) none {} {} {} =
      .ok (.serializerField {allowNull := some false} 0 0, [], ⟨[(0, plainCls)], 1⟩) := by
  rfl

theorem claim_C5_witness :
    (convert_type plainNestedEnv 28 7 (.plainModel 0) none {} {} {} =
       .ok (.serializerField {allowNull := some false} plainCls.clsId 0, [], ⟨[(0, plainCls)], 1⟩))
  ∧ (Legacy.convert_type plainNestedEnv (.plainModel 0) =
       .error (.typeErr ("Model " ++ (getModel plainNestedEnv 0).mname ++
         " is a normal pydantic model. All nested models must be inherited from drf_pydantic.BaseModel"))) :=
  claim_C5_thm plainNestedEnv 28 5 0 {} {} {} none plainCls [] ⟨[(0, plainCls)], 1⟩ rfl

/-! ## C8: config defaults and the dual-validation flow -/

/-- C8: with no explicit config values, the resolved config is the global
default (dual validation off, derived error authority, back-population on);
under the pure defaults `validate` returns its input untouched and never
consults the pydantic model; with only `validate_pydantic` set to true, a
pydantic construction failure is translated into the DRF error shape, and a
success back-populates the output from the instance's attributes. -/
theorem claim_C8_thm :
    (resolveDrfConfig {} {} = ⟨false, .drf, true⟩)
  ∧ (∀ (fields : List String) (key : String) (attrs : List (String × Value))
        (outcome : PydOutcome),
       serializerValidate (resolveDrfConfig {} {}).toDict fields key attrs outcome = .ok attrs)
  ∧ (∀ (fields : List String) (key : String) (attrs : List (String × Value))
        (errs : List PydanticError),
       serializerValidate (resolveDrfConfig {validate_pydantic := some true} {}).toDict
           fields key attrs (.fail errs) =
         .error (.drfValidationError (translateErrors fields key errs)))
  ∧ (∀ (fields : List String) (key : String) (attrs inst : List (String × Value)),
       serializerValidate (resolveDrfConfig {validate_pydantic := some true} {}).toDict
           fields key attrs (.ok inst) =
         .ok (attrs.map fun p =>
           match inst.lookup p.1 with
           | some pv => (p.1, flattenValue pv)
           | none => p)) :=
  ⟨rfl, fun _ _ _ _ => rfl, fun _ _ _ _ => rfl, fun _ _ _ _ => rfl⟩

theorem claim_C8_witness :
    (resolveDrfConfig {} {} = ⟨false, .drf, true⟩)
  ∧ (serializerValidate (resolveDrfConfig {} {}).toDict ["name"] "non_field_errors"
       [("name", .vstr "Van")] (.fail [⟨[.s "name"], "bad", "value_error"⟩]) =
       .ok [("name", .vstr "Van")])
  ∧ (serializerValidate (resolveDrfConfig {validate_pydantic := some true} {}).toDict
       ["name"] "non_field_errors" [("name", .vstr "Van")]
       (.fail [⟨[.s "name"], "bad", "value_error"⟩]) =
       .error (.drfValidationError (translateErrors ["name"] "non_field_errors"
         [⟨[.s "name"], "bad", "value_error"⟩])))
  ∧ (serializerValidate (resolveDrfConfig {validate_pydantic := some true} {}).toDict
       ["name"] "non_field_errors" [("name", .vstr "Van")]
       (.ok [("name", .vstr "Jabroni")]) = .ok [("name", .vstr "Jabroni")]) := by
  have h := claim_C8_thm
  refine ⟨h.1, h.2.1 _ _ _ _, h.2.2.1 _ _ _ _, ?_⟩
  have h4 := h.2.2.2 ["name"] "non_field_errors" [("name", .vstr "Van")]
    [("name", .vstr "Jabroni")]
  simpa using h4

/-! ## C3: the translated error aggregate -/

/-- Dict lookup in a bucket mapping. -/
def bucketFind : List (String × List String) → String → Option (List String)
  | [], _ => none
  | (k', v) :: rest, k => if k' == k then some v else bucketFind rest k

lemma bucketFind_eq_none_iff (l : List (String × List String)) (k : String) :
    bucketFind l k = none ↔ ∀ p ∈ l, p.1 ≠ k := by
  induction l with
  | nil => simp [bucketFind]
  | cons p rest ih =>
    obtain ⟨a, b⟩ := p
    by_cases h : a = k <;> simp [bucketFind, h, ih]

lemma bucketFind_addBucket_self (l : List (String × List String)) (k m : String) :
    bucketFind (addBucket l k m) k = some ((bucketFind l k).getD [] ++ [m]) := by
  induction l with
  | nil => simp [addBucket, bucketFind]
  | cons p rest ih =>
    obtain ⟨a, b⟩ := p
    by_cases h : a = k <;> simp [addBucket, bucketFind, h, ih]

lemma bucketFind_addBucket_other (l : List (String × List String)) (k m k' : String)
    (h : k' ≠ k) : bucketFind (addBucket l k m) k' = bucketFind l k' := by
  induction l with
  | nil => simp [addBucket, bucketFind, Ne.symm h]
  | cons p rest ih =>
    obtain ⟨a, b⟩ := p
    by_cases ha : a = k
    · subst ha
      simp [addBucket, bucketFind, Ne.symm h]
    · by_cases ha' : a = k'
      · subst ha'
        simp [addBucket, bucketFind, ha]
      · simp [addBucket, bucketFind, ha, ha', ih]

lemma bucketFind_dictAssign_self (d : List (String × List String)) (k : String)
    (v : List String) : bucketFind (dictAssign d k v) k = some v := by
  induction d with
  | nil => simp [dictAssign, bucketFind]
  | cons p rest ih =>
    obtain ⟨a, b⟩ := p
    by_cases h : a = k <;> simp [dictAssign, bucketFind, h, ih]

lemma bucketFind_dictAssign_other (d : List (String × List String)) (k : String)
    (v : List String) (k' : String) (h : k' ≠ k) :
    bucketFind (dictAssign d k v) k' = bucketFind d k' := by
  induction d with
  | nil => simp [dictAssign, bucketFind, Ne.symm h]
  | cons p rest ih =>
    obtain ⟨a, b⟩ := p
    by_cases ha : a = k
    · subst ha
      simp [dictAssign, bucketFind, Ne.symm h]
    · by_cases ha' : a = k'
      · subst ha'
        simp [dictAssign, bucketFind, ha]
      · simp [dictAssign, bucketFind, ha, ha', ih]

/-- The keys of `addBucket`: unchanged when the bucket exists, appended
otherwise. -/
lemma addBucket_keys (l : List (String × List String)) (k m : String) :
    (addBucket l k m).map Prod.fst =
      if bucketFind l k = none then l.map Prod.fst ++ [k] else l.map Prod.fst := by
  induction l with
  | nil => simp [addBucket, bucketFind]
  | cons p rest ih =>
    obtain ⟨a, b⟩ := p
    by_cases h : a = k
    · simp [addBucket, bucketFind, h]
    · simp only [addBucket, bucketFind]
      by_cases hr : bucketFind rest k = none <;> simp [h, hr, ih]

lemma addBucket_keys_nodup (l : List (String × List String)) (k m : String)
    (h : (l.map Prod.fst).Nodup) : ((addBucket l k m).map Prod.fst).Nodup := by
  rw [addBucket_keys]
  by_cases hr : bucketFind l k = none
  · rw [if_pos hr]
    rw [List.nodup_append]
    refine ⟨h, List.nodup_singleton k, ?_⟩
    intro a ha hk
    simp at hk
    subst hk
    rw [bucketFind_eq_none_iff] at hr
    obtain ⟨p, hp, hpa⟩ := List.mem_map.mp ha
    exact hr p hp hpa
  · simp [hr, h]

/-- The global bucket accumulated by the grouping loop: the input list
extended by the encodings of the global errors, in order. -/
lemma groupErrors_fold_snd (fields : List String) (errs : List PydanticError)
    (acc : List (String × List String) × List String) :
    (errs.foldl (groupStep fields) acc).2 =
      acc.2 ++ (errs.filter (fun e => (errKey fields e).isNone)).map encodeError := by
  induction errs generalizing acc with
  | nil => simp
  | cons e rest ih =>
    rcases hk : errKey fields e with _ | k <;>
      simp [List.foldl_cons, groupStep, hk, ih, List.filter_cons]

/-- The field buckets accumulated by the grouping loop, characterized per
key: the bucket of `k` extends the input bucket with the ordered encodings
of the errors attributed to `k`, and exists exactly when either existed. -/
lemma groupErrors_fold_fst (fields : List String) (errs : List PydanticError)
    (acc : List (String × List String) × List String) (k : String) :
    bucketFind (errs.foldl (groupStep fields) acc).1 k =
      (match bucketFind acc.1 k with
       | some old =>
         some (old ++ (errs.filter (fun e => errKey fields e == some k)).map encodeError)
       | none =>
         if ((errs.filter (fun e => errKey fields e == some k)).map encodeError).isEmpty
         then none
         else some ((errs.filter (fun e => errKey fields e == some k)).map encodeError)) := by
  induction errs generalizing acc with
  | nil =>
    cases h : bucketFind acc.1 k <;> simp [h]
  | cons e rest ih =>
    rcases hk : errKey fields e with _ | k'
    · simp only [List.foldl_cons, groupStep, hk]
      rw [ih]
      simp [List.filter_cons, hk]
    · by_cases hkk : k' = k
      · subst hkk
        simp only [List.foldl_cons, groupStep, hk]
        rw [ih]
        rw [bucketFind_addBucket_self]
        have hpred : (errKey fields e == some k') = true := by simp [hk]
        simp only [List.filter_cons, hpred, if_true, List.map_cons]
        cases h : bucketFind acc.1 k' <;> simp [h]
      · simp only [List.foldl_cons, groupStep, hk]
        rw [ih]
        rw [bucketFind_addBucket_other _ _ _ _ (Ne.symm hkk)]
        have hpred : (errKey fields e == some k) = false := by simp [hk, hkk]
        simp only [List.filter_cons, hpred, if_false]
        rfl

lemma groupErrors_keys_nodup (fields : List String) (errs : List PydanticError) :
    (((groupErrors fields errs).1).map Prod.fst).Nodup := by
  unfold groupErrors
  generalize hacc : (([], []) : List (String × List String) × List String) = acc
  have hnd : (acc.1.map Prod.fst).Nodup := by rw [← hacc]; simp
  clear hacc
  induction errs generalizing acc with
  | nil => simpa using hnd
  | cons e rest ih =>
    rcases hk : errKey fields e with _ | k <;> simp only [List.foldl_cons, groupStep, hk]
    · exact ih _ hnd
    · exact ih _ (addBucket_keys_nodup _ _ _ hnd)

/-- The `**field_errors` dict merge, looked up per key: an assigned key
holds its (unique) assigned bucket, any other key falls back to the base
dict. -/
lemma foldl_dictAssign_find (ps : List (String × List String))
    (d : List (String × List String)) (k : String)
    (hnd : (ps.map Prod.fst).Nodup) :
    bucketFind (ps.foldl (fun acc p => dictAssign acc p.1 p.2) d) k =
      (match bucketFind ps k with
       | some v => some v
       | none => bucketFind d k) := by
  induction ps generalizing d with
  | nil => simp [bucketFind]
  | cons p rest ih =>
    obtain ⟨a, b⟩ := p
    simp only [List.map_cons, List.nodup_cons] at hnd
    by_cases hak : a = k
    · subst hak
      have hrest : bucketFind rest a = none := by
        rw [bucketFind_eq_none_iff]
        intro q hq hqa
        exact hnd.1 (List.mem_map.mpr ⟨q, hq, hqa⟩)
      simp only [List.foldl_cons]
      rw [ih _ hnd.2]
      simp [bucketFind, hrest, bucketFind_dictAssign_self]
    · simp only [List.foldl_cons]
      rw [ih _ hnd.2]
      cases h : bucketFind rest k with
      | some v => simp [bucketFind, hak, h]
      | none => simp [bucketFind, hak, h, bucketFind_dictAssign_other _ _ _ _ (Ne.symm hak)]

/-- C3 (amended): with dual validation on and derived error authority, a
pydantic failure raises one aggregate whose global bucket is always present
(holding exactly the encodings of the errors whose location is empty, does
not start with a string, or names no schema field) and whose per-field
buckets exist exactly when non-empty, holding exactly the errors attributed
to that field — provided no error is attributed to a schema field named
like the global bucket key, in which case that field bucket would overwrite
the global bucket. -/
theorem claim_C3_thm (fields : List String) (key : String)
    (attrs : List (String × Value)) (errs : List PydanticError)
    (hcol : ∀ e ∈ errs, errKey fields e ≠ some key) :
    (serializerValidate {validate_pydantic := some true, validation_error := some .drf}
        fields key attrs (.fail errs) =
      .error (.drfValidationError (translateErrors fields key errs)))
  ∧ (bucketFind (translateErrors fields key errs) key =
      some ((errs.filter (fun e => (errKey fields e).isNone)).map encodeError))
  ∧ (∀ k, k ≠ key →
      bucketFind (translateErrors fields key errs) k =
        (let ms := (errs.filter (fun e => errKey fields e == some k)).map encodeError
         if ms.isEmpty then none else some ms)) := by
  have hnone : bucketFind (groupErrors fields errs).1 key = none := by
    unfold groupErrors
    rw [groupErrors_fold_fst]
    have hfil : errs.filter (fun e => errKey fields e == some key) = [] := by
      rw [List.filter_eq_nil_iff]
      intro e he
      simpa using hcol e he
    simp [bucketFind, hfil]
  refine ⟨rfl, ?_, ?_⟩
  · unfold translateErrors
    rw [foldl_dictAssign_find _ _ _ (groupErrors_keys_nodup fields errs), hnone]
    have hsnd := groupErrors_fold_snd fields errs ([], [])
    unfold groupErrors
    simp [bucketFind]
    simpa using hsnd
  · intro k hk
    unfold translateErrors
    rw [foldl_dictAssign_find _ _ _ (groupErrors_keys_nodup fields errs)]
    have hfst := groupErrors_fold_fst fields errs ([], []) k
    unfold groupErrors
    rw [hfst]
    simp only [bucketFind]
    by_cases hms :
        ((errs.filter (fun e => errKey fields e == some k)).map encodeError).isEmpty
    · simp [hms, bucketFind, (by simpa using Ne.symm hk : ¬ key = k)]
    · simp [hms]

/-- C3 counterexample: when the derived schema itself has a field named
exactly like the global bucket key and a source error is attributed to it,
the `**field_errors` merge overwrites the global bucket — the empty-location
error's message is dropped from the raised aggregate, so the global bucket
is not present. -/
theorem claim_C3_counterexample :
    translateErrors ["non_field_errors"] "non_field_errors"
        [⟨[], "boom", "value_error"⟩, ⟨[.s "non_field_errors"], "bad", "value_error"⟩] =
      [("non_field_errors",
        ["\x7b\"loc\": [\"non_field_errors\"], \"msg\": \"bad\", \"type\": \"value_error\"\x7d"])] := by
  rfl

theorem claim_C3_witness :
    (serializerValidate {validate_pydantic := some true, validation_error := some .drf}
        ["name"] "non_field_errors" [("name", .vstr "Van")]
        (.fail [⟨[.s "name"], "bad", "value_error"⟩, ⟨[], "boom", "value_error"⟩]) =
      .error (.drfValidationError (translateErrors ["name"] "non_field_errors"
        [⟨[.s "name"], "bad", "value_error"⟩, ⟨[], "boom", "value_error"⟩])))
  ∧ (bucketFind (translateErrors ["name"] "non_field_errors"
        [⟨[.s "name"], "bad", "value_error"⟩, ⟨[], "boom", "value_error"⟩]) "non_field_errors" =
      some ([⟨[], "boom", "value_error"⟩].map encodeError))
  ∧ (∀ k, k ≠ "non_field_errors" →
      bucketFind (translateErrors ["name"] "non_field_errors"
          [⟨[.s "name"], "bad", "value_error"⟩, ⟨[], "boom", "value_error"⟩]) k =
        (let ms := (([⟨[.s "name"], "bad", "value_error"⟩,
              ⟨[], "boom", "value_error"⟩] : List PydanticError).filter
            (fun e => errKey ["name"] e == some k)).map encodeError
         if ms.isEmpty then none else some ms)) := by
  have h := claim_C3_thm ["name"] "non_field_errors" [("name", .vstr "Van")]
    [⟨[.s "name"], "bad", "value_error"⟩, ⟨[], "boom", "value_error"⟩] (by decide)
  exact ⟨h.1, by simpa using h.2.1, h.2.2⟩

/-! ## C7: enum conversion and EnumField validation -/

/-- The enum of the repository's own tests: `MALE = "male"`,
`FEMALE = "female"`. -/
def sexEnum : EnumDef := ⟨"SexEnum", [("MALE", .vstr "male"), ("FEMALE", .vstr "female")]⟩

lemma find?_ext_mem {α} (l : List α) (p q : α → Bool) (h : ∀ x ∈ l, p x = q x) :
    l.find? p = l.find? q := by
  induction l with
  | nil => rfl
  | cons a t ih =>
    have ha := h a (List.mem_cons_self a t)
    cases hq : q a
    · rw [List.find?_cons_of_neg _ (by simp [ha, hq]),
        List.find?_cons_of_neg _ (by simp [hq])]
      exact ih fun x hx => h x (List.mem_cons_of_mem a hx)
    · rw [List.find?_cons_of_pos _ (by simp [ha, hq]),
        List.find?_cons_of_pos _ (by simp [hq])]

lemma find?_fst_eq (l : List (String × Value)) (n : String) (v : Value)
    (hnd : (l.map Prod.fst).Nodup) (hm : (n, v) ∈ l) :
    l.find? (fun p => p.1 == n) = some (n, v) := by
  induction l with
  | nil => cases hm
  | cons a t ih =>
    simp only [List.map_cons, List.nodup_cons] at hnd
    rcases List.mem_cons.mp hm with h | hm'
    · subst h
      simp [List.find?_cons]
    · have han : (a.1 == n) = false := by
        rw [beq_eq_false_iff_ne]
        intro h
        exact hnd.1 (h ▸ List.mem_map.mpr ⟨(n, v), hm', rfl⟩)
      simp [List.find?_cons, han, ih hnd.2 hm']

lemma find?_snd_eq (l : List (String × Value)) (n : String) (v : Value)
    (hnd : (l.map Prod.snd).Nodup) (hm : (n, v) ∈ l) :
    l.find? (fun p => v == p.2) = some (n, v) := by
  induction l with
  | nil => cases hm
  | cons a t ih =>
    simp only [List.map_cons, List.nodup_cons] at hnd
    rcases List.mem_cons.mp hm with h | hm'
    · subst h
      simp [List.find?_cons]
    · have han : (v == a.2) = false := by
        rw [beq_eq_false_iff_ne]
        intro h
        exact hnd.1 (h ▸ List.mem_map.mpr ⟨(n, v), hm', rfl⟩)
      simp [List.find?_cons, han, ih hnd.2 hm']

/-- C7 (amended): the conversion produces a *plain* choice field whose
choices are the member values (paired with themselves); the object/name/value
normalization with the "No matching enum type" failure belongs to the
separate `EnumField` class (fields.py), which the conversion does not
instantiate: on it, member-object, member-name and member-value inputs all
normalize to the same member via `to_internal_value` (for enums without
name/value collisions), anything else fails with "No matching enum type",
and `to_representation` renders a member's value. -/
theorem claim_C7_thm (e : EnumDef) (env : Env) (prec fuel : Nat)
    (cfg : DrfConfig) (st : RegState) (kw : Kwargs) (fld : Option FieldInfo)
    (hpat : hasPatternMeta fld = false)
    (n : String) (v : Value) (hm : (n, v) ∈ e.members)
    (hnames : (e.members.map Prod.fst).Nodup)
    (hvals : (e.members.map Prod.snd).Nodup)
    (hcross : ∀ p ∈ e.members, ∀ q ∈ e.members, p.2 ≠ Value.vstr q.1)
    (badInput : EnumInput)
    (hbad : ∀ p ∈ e.members, memberEqData e p.1 badInput = false ∧
        memberNameEqData p.1 badInput = false ∧ memberValueEqData p.2 badInput = false) :
    (convert_type env prec (fuel + 2) (.penum e) fld kw cfg st =
       .ok (.choiceField {kw with allowNull := some false}
              (e.members.map fun p => .pair p.2 p.2), [], st))
  ∧ (enumToInternalValue e (.member e.ename n) = .ok (n, v))
  ∧ (enumToInternalValue e (.val (.vstr n)) = .ok (n, v))
  ∧ (enumToInternalValue e (.val v) = .ok (n, v))
  ∧ (enumToInternalValue e badInput = .error "No matching enum type")
  ∧ (enumToRepresentation e (.member e.ename n) = .val v) := by
  refine ⟨?_, ?_, ?_, ?_, ?_, ?_⟩
  · simp [convert_type, fieldResult, convertAux, get_union_members, isAliasT, is_scalar, isClassP,
      isDecimalT, isEnumT, hpat]
  · have hpred : ∀ p ∈ e.members,
        (memberEqData e p.1 (.member e.ename n) || memberNameEqData p.1 (.member e.ename n) ||
          memberValueEqData p.2 (.member e.ename n)) = (p.1 == n) := by
      intro p _
      by_cases h : p.1 = n
      · simp [memberEqData, memberNameEqData, memberValueEqData, h]
      · simp [memberEqData, memberNameEqData, memberValueEqData, h, Ne.symm h]
    unfold enumToInternalValue
    rw [find?_ext_mem _ _ _ hpred, find?_fst_eq e.members n v hnames hm]
  · have hpred : ∀ p ∈ e.members,
        (memberEqData e p.1 (.val (.vstr n)) || memberNameEqData p.1 (.val (.vstr n)) ||
          memberValueEqData p.2 (.val (.vstr n))) = (p.1 == n) := by
      intro p hp
      have hv : p.2 ≠ .vstr n := hcross p hp (n, v) hm
      by_cases h : p.1 = n
      · simp [memberEqData, memberNameEqData, memberValueEqData, h]
      · have h1 : (n == p.1) = false := beq_eq_false_iff_ne.mpr (Ne.symm h)
        have h2 : (Value.vstr n == p.2) = false := beq_eq_false_iff_ne.mpr (Ne.symm hv)
        have h3 : (p.1 == n) = false := beq_eq_false_iff_ne.mpr h
        simp [memberEqData, memberNameEqData, memberValueEqData, h1, h2, h3]
    unfold enumToInternalValue
    rw [find?_ext_mem _ _ _ hpred, find?_fst_eq e.members n v hnames hm]
  · have hpred : ∀ p ∈ e.members,
        (memberEqData e p.1 (.val v) || memberNameEqData p.1 (.val v) ||
          memberValueEqData p.2 (.val v)) = (v == p.2) := by
      intro p hp
      have hv : v ≠ .vstr p.1 := hcross (n, v) hm p hp
      rcases hV : v with s | _ | _ | _ | _ | _ | _
      · have hs : s ≠ p.1 := by
          intro h
          exact hv (by rw [hV, h])
        simp [memberEqData, memberNameEqData, memberValueEqData, hs]
      all_goals simp [memberEqData, memberNameEqData, memberValueEqData]
    unfold enumToInternalValue
    rw [find?_ext_mem _ _ _ hpred, find?_snd_eq e.members n v hvals hm]
  · unfold enumToInternalValue
    rw [List.find?_eq_none.mpr ?_]
    intro p hp
    have h := hbad p hp
    simp [h.1, h.2.1, h.2.2]
  · simp only [enumToRepresentation]
    rw [if_pos (by simp), find?_fst_eq e.members n v hnames hm]

/-- C7 counterexample: for the concrete test enum, the conversion produces a
plain ChoiceField with `(value, value)` choices — not the `EnumField` whose
behavior the claim describes; the `EnumField`'s own default choices pair the
member objects with their *names*, and its `run_validation` pre-check
rejects a member-*name* input outright. -/
theorem claim_C7_counterexample :
    (convert_type personEnv 28 5 (.penum sexEnum) none {} {} {} =
       .ok (.choiceField {allowNull := some false}
              [.pair (.vstr "male") (.vstr "male"), .pair (.vstr "female") (.vstr "female")],
            [], {}))
  ∧ (enumFieldDefaultChoices sexEnum =
       [.pair (.vEnumMember "SexEnum" "MALE") (.vstr "MALE"),
        .pair (.vEnumMember "SexEnum" "FEMALE") (.vstr "FEMALE")])
  ∧ (enumRunValidationPre sexEnum (.val (.vstr "MALE")) = .error "No matching enum type") :=
  ⟨rfl, rfl, rfl⟩

theorem claim_C7_witness :
    (convert_type personEnv 28 3 (.penum sexEnum) none {} {} {} =
       .ok (.choiceField {allowNull := some false}
              (sexEnum.members.map fun p => .pair p.2 p.2), [], {}))
  ∧ (enumToInternalValue sexEnum (.member "SexEnum" "MALE") = .ok ("MALE", .vstr "male"))
  ∧ (enumToInternalValue sexEnum (.val (.vstr "MALE")) = .ok ("MALE", .vstr "male"))
  ∧ (enumToInternalValue sexEnum (.val (.vstr "male")) = .ok ("MALE", .vstr "male"))
  ∧ (enumToInternalValue sexEnum (.val (.vstr "bad")) = .error "No matching enum type")
  ∧ (enumToRepresentation sexEnum (.member "SexEnum" "MALE") = .val (.vstr "male")) :=
  claim_C7_thm sexEnum personEnv 28 1 {} {} {} none rfl "MALE" (.vstr "male")
    (by decide) (by decide) (by decide) (by decide) (.val (.vstr "bad")) (by decide)

/-! ## C2: union handling -/

/-- The top-level kwargs a field instance was constructed with. -/
def DrfField.topKw : DrfField → Kwargs
  | .basic _ kw => kw
  | .listField kw _ => kw
  | .dictField kw _ => kw
  | .choiceField kw _ => kw
  | .enumField kw _ _ => kw
  | .regexField kw _ => kw
  | .jsonField kw => kw
  | .serializerField kw _ _ => kw

/-- Replace the top-level kwargs of a field instance. -/
def DrfField.withTopKw : DrfField → Kwargs → DrfField
  | .basic k _, kw => .basic k kw
  | .listField _ c, kw => .listField kw c
  | .dictField _ c, kw => .dictField kw c
  | .choiceField _ cs, kw => .choiceField kw cs
  | .enumField _ e cs, kw => .enumField kw e cs
  | .regexField _ p, kw => .regexField kw p
  | .jsonField _, kw => .jsonField kw
  | .serializerField _ i m, kw => .serializerField kw i m

/-- Erase the top-level kwargs of the produced field in an interpreter
answer (the field's class, children, choices, pattern, warnings, and the
registry state are untouched). -/
def eraseTopKwA : Answer → Answer
  | .ok (.field f w st) => .ok (.field (f.withTopKw {}) w st)
  | a => a

/-- Erase the top-level kwargs of the produced field in a `_convert_type`
result. -/
def eraseTopKw3 : Except PyErr (DrfField × List Warning × RegState) →
    Except PyErr (DrfField × List Warning × RegState)
  | .ok (f, w, st) => .ok (f.withTopKw {}, w, st)
  | .error e => .error e

lemma eraseTopKw3_fieldResult (r : Answer) :
    eraseTopKw3 (fieldResult r) = fieldResult (eraseTopKwA r) := by
  rcases r with e | a
  · rfl
  · rcases a with ⟨f, w, st⟩ | ⟨c, w, st⟩ <;> rfl

/-- The continuation of `_convert_type` past the union handling does not
read the incoming kwargs for control flow: converting the same type with
different kwargs yields results identical up to the top-level kwargs of the
produced field — same success or failure, same error, same field class,
same children, same warnings, same registry state. -/
lemma typeCore_kw_shape (env : Env) (prec : Nat) (fuel : Nat) (t : PType)
    (fld : Option FieldInfo) (kw kw' : Kwargs) (cfg : DrfConfig) (st : RegState) :
    eraseTopKwA (convertAux env prec fuel (.typeCore t fld kw cfg st)) =
      eraseTopKwA (convertAux env prec fuel (.typeCore t fld kw' cfg st)) := by
  match fuel with
  | 0 => rfl
  | fuel + 1 =>
    cases t
    case plainModel m =>
      rcases hB : convertAux env prec fuel (.build m cfg st) with e | a
      · simp [convertAux, is_scalar, isAliasT, isClassP, hB, eraseTopKwA]
      · rcases a with ⟨f, w, st'⟩ | ⟨c, w, st'⟩ <;>
          simp [convertAux, is_scalar, isAliasT, isClassP, hB, eraseTopKwA, DrfField.withTopKw]
    case drfModel m =>
      rcases hA : attrFind env.drfAttr m with _ | sid <;>
        simp [convertAux, is_scalar, isAliasT, isClassP, hA, eraseTopKwA, DrfField.withTopKw]
    case plist elem =>
      rcases hB : convertAux env prec fuel (.type elem none {} cfg st) with e | a
      · simp [convertAux, is_scalar, isAliasT, hB, eraseTopKwA]
      · rcases a with ⟨f, w, st'⟩ | ⟨c, w, st'⟩ <;>
          simp [convertAux, is_scalar, isAliasT, hB, eraseTopKwA, DrfField.withTopKw]
    case ptuple args =>
      rcases hT : tupleShape args with a | _ | _
      · rcases hB : convertAux env prec fuel (.type a none {} cfg st) with e | aa
        · simp [convertAux, is_scalar, isAliasT, hT, hB, eraseTopKwA]
        · rcases aa with ⟨f, w, st'⟩ | ⟨c, w, st'⟩ <;>
            simp [convertAux, is_scalar, isAliasT, hT, hB, eraseTopKwA, DrfField.withTopKw]
      · simp [convertAux, is_scalar, isAliasT, hT, eraseTopKwA]
      · simp [convertAux, is_scalar, isAliasT, hT, eraseTopKwA]
    case pdict k v =>
      cases hk : isStrExact k
      · simp [convertAux, is_scalar, isAliasT, hk, eraseTopKwA]
      · rcases hB : convertAux env prec fuel (.type v none {} cfg st) with e | a
        · simp [convertAux, is_scalar, isAliasT, hk, hB, eraseTopKwA]
        · rcases a with ⟨f, w, st'⟩ | ⟨c, w, st'⟩ <;>
            simp [convertAux, is_scalar, isAliasT, hk, hB, eraseTopKwA, DrfField.withTopKw]
    all_goals
      by_cases hp : hasPatternMeta fld <;>
        rcases hps : collectPatterns fld with _ | ⟨p, _ | ⟨q, rest⟩⟩ <;>
        simp [convertAux, isAliasT, isJsonValue, is_scalar, isClassP, isDecimalT,
          isEnumT, scalarFallback, isEmailOrUrl, isStrSub, fieldMapMro, typeName,
          eraseTopKwA, DrfField.withTopKw, hp, hps]

/-- The continuation of `_convert_type` past the union handling preserves
the `allow_null` entry of the incoming kwargs on the produced field. -/
lemma typeCore_allowNull (env : Env) (prec : Nat) (fuel : Nat) (t : PType)
    (fld : Option FieldInfo) (kw : Kwargs) (cfg : DrfConfig) (st : RegState)
    (f : DrfField) (w : List Warning) (st' : RegState)
    (h : convertAux env prec fuel (.typeCore t fld kw cfg st) = .ok (.field f w st')) :
    f.topKw.allowNull = kw.allowNull := by
  match fuel with
  | 0 => exact absurd h (by simp [convertAux])
  | fuel + 1 =>
    cases t
    case plainModel m =>
      rcases hB : convertAux env prec fuel (.build m cfg st) with e | a
      · rw [show convertAux env prec (fuel+1)
            (.typeCore (.plainModel m) fld kw cfg st) = .error e by
          simp [convertAux, is_scalar, isAliasT, isClassP, hB]] at h
        cases h
      · rcases a with ⟨f', w', st''⟩ | ⟨c, w', st''⟩
        · simp [convertAux, is_scalar, isAliasT, isClassP, hB] at h
        · simp [convertAux, is_scalar, isAliasT, isClassP, hB] at h
          obtain ⟨rfl, -, -⟩ := h
          rfl
    case drfModel m =>
      rcases hA : attrFind env.drfAttr m with _ | sid <;>
        simp [convertAux, is_scalar, isAliasT, isClassP, hA] at h
      obtain ⟨rfl, -, -⟩ := h
      rfl
    case plist elem =>
      rcases hB : convertAux env prec fuel (.type elem none {} cfg st) with e | a
      · simp [convertAux, is_scalar, isAliasT, hB] at h
      · rcases a with ⟨f', w', st''⟩ | ⟨c, w', st''⟩ <;>
          simp [convertAux, is_scalar, isAliasT, hB] at h
        obtain ⟨rfl, -, -⟩ := h
        rfl
    case ptuple args =>
      rcases hT : tupleShape args with a | _ | _
      · rcases hB : convertAux env prec fuel (.type a none {} cfg st) with e | aa
        · simp [convertAux, is_scalar, isAliasT, hT, hB] at h
        · rcases aa with ⟨f', w', st''⟩ | ⟨c, w', st''⟩ <;>
            simp [convertAux, is_scalar, isAliasT, hT, hB] at h
          obtain ⟨rfl, -, -⟩ := h
          rfl
      · simp [convertAux, is_scalar, isAliasT, hT] at h
      · simp [convertAux, is_scalar, isAliasT, hT] at h
    case pdict k v =>
      cases hk : isStrExact k
      · simp [convertAux, is_scalar, isAliasT, hk] at h
      · rcases hB : convertAux env prec fuel (.type v none {} cfg st) with e | a
        · simp [convertAux, is_scalar, isAliasT, hk, hB] at h
        · rcases a with ⟨f', w', st''⟩ | ⟨c, w', st''⟩ <;>
            simp [convertAux, is_scalar, isAliasT, hk, hB] at h
          obtain ⟨rfl, -, -⟩ := h
          rfl
    all_goals
      (by_cases hp : hasPatternMeta fld <;>
        rcases hps : collectPatterns fld with _ | ⟨p, _ | ⟨q, rest⟩⟩ <;>
        (try simp [convertAux, isAliasT, isJsonValue, is_scalar, isClassP, isDecimalT,
          isEnumT, scalarFallback, isEmailOrUrl, isStrSub, fieldMapMro, typeName,
          hp, hps] at h) <;>
        (try obtain ⟨rfl, -, -⟩ := h) <;>
        (try rfl))

/-- C2: a union field converts only in the optional case — any union with
more than two members, or without the none type, is a hard field conversion
error; the accepted two-member optional union marks the produced field
`allow_null=true` and otherwise converts exactly like its non-none member
(same field class, children, success/failure, warnings, and registry
effect). -/
theorem claim_C2_thm (env : Env) (prec fuel : Nat) (fld : Option FieldInfo)
    (kw : Kwargs) (cfg : DrfConfig) (st : RegState) :
    (∀ ms : List PType, (decide (ms.length > 2) || !(ms.any isNoneType)) = true →
       convert_type env prec (fuel + 1) (.punion ms) fld kw cfg st =
         .error (.fieldConversionError
           ("Field has Union type which cannot be converted to DRF Serializer: " ++
            reprType (.punion ms) ++
            ". Only optional union (two types, one of which is None) is supported.")))
  ∧ (∀ (X : PType) (ms : List PType), isNoneType X = false →
       get_union_members X = none →
       (ms = [X, .pnone] ∨ ms = [.pnone, X]) →
       (eraseTopKw3 (convert_type env prec (fuel + 1) (.punion ms) fld kw cfg st) =
          eraseTopKw3 (convert_type env prec (fuel + 1) X fld kw cfg st))
     ∧ (∀ f w st', convert_type env prec (fuel + 1) (.punion ms) fld kw cfg st =
          .ok (f, w, st') → f.topKw.allowNull = some true)) := by
  constructor
  · intro ms hms
    simp [convert_type, fieldResult, convertAux, get_union_members, hms]
  · intro X ms hX hXu hms
    have hstrip : convertAux env prec (fuel + 1) (.type (.punion ms) fld kw cfg st) =
        convertAux env prec fuel (.typeCore X fld {kw with allowNull := some true} cfg st) := by
      rcases hms with rfl | rfl <;>
        simp [convertAux, get_union_members, hX, List.filter_cons, List.any_cons,
          show isNoneType PType.pnone = true from rfl]
    have hdirect : convertAux env prec (fuel + 1) (.type X fld kw cfg st) =
        convertAux env prec fuel (.typeCore X fld {kw with allowNull := some false} cfg st) := by
      simp [convertAux, hXu]
    constructor
    · simp only [convert_type]
      rw [hstrip, hdirect, eraseTopKw3_fieldResult, eraseTopKw3_fieldResult,
        typeCore_kw_shape env prec fuel X fld {kw with allowNull := some true}
          {kw with allowNull := some false} cfg st]
    · intro f w st' hok
      simp only [convert_type] at hok
      rw [hstrip] at hok
      rcases hr : convertAux env prec fuel
          (.typeCore X fld {kw with allowNull := some true} cfg st) with e | a
      · rw [hr] at hok
        exact absurd hok (by simp [fieldResult])
      · rcases a with ⟨f', w', st''⟩ | ⟨c, w', st''⟩
        · rw [hr] at hok
          simp [fieldResult] at hok
          obtain ⟨rfl, rfl, rfl⟩ := hok
          have := typeCore_allowNull env prec fuel X fld _ cfg st _ _ _ hr
          simpa using this
        · rw [hr] at hok
          exact absurd hok (by simp [fieldResult])

theorem claim_C2_witness :
    (convert_type personEnv 28 5 (.punion [.pstr, .pint, .pnone]) none {} {} {} =
       .error (.fieldConversionError
         ("Field has Union type which cannot be converted to DRF Serializer: " ++
          reprType (.punion [.pstr, .pint, .pnone]) ++
          ". Only optional union (two types, one of which is None) is supported.")))
  ∧ ((eraseTopKw3 (convert_type personEnv 28 5 (.punion [.pstr, .pnone]) none {} {} {}) =
        eraseTopKw3 (convert_type personEnv 28 5 .pstr none {} {} {}))
     ∧ (∀ f w st', convert_type personEnv 28 5 (.punion [.pstr, .pnone]) none {} {} {} =
          .ok (f, w, st') → f.topKw.allowNull = some true)) := by
  have h := claim_C2_thm personEnv 28 4 none {} {} {}
  exact ⟨h.1 [.pstr, .pint, .pnone] (by decide),
    h.2 .pstr [.pstr, .pnone] rfl rfl (Or.inl rfl)⟩

end DrfPydantic
